import Mathlib

/-!
Verification of the BioMed Analyzer desktop application (`main.py`).

The development shallowly embeds the program's pure logic:

* `register_user` / `login_user` — the SQLite-backed credential store
  (`DatabaseManager.register_user`, `DatabaseManager.login_user`).  The
  password digest (`hashlib.sha256(...).hexdigest()`) is an external
  capability and is passed in as an abstract function `hash : String → String`.
* `handle_register` — the UI-level registration handler (`LoginWindow.handle_register`).
* `MainWindow_new` — the role-based window factory (`MainWindow.__new__`).
* The image workflow (`ImageExpertWindow`): DICOM volume loading, NIfTI export and
  viewing, 2D image loading, morphological filtering, cell counting, image saving.
  External library calls (OpenCV morphology, Otsu thresholding, connected
  components) are embedded by their exact-arithmetic semantics.
* The signal workflow (`SignalExpertWindow`): MAT loading/plotting/statistics and
  CSV loading/plotting/column analysis, with pandas statistics embedded over ℚ.

Audit records (`dicom_files`, `image_analysis`, `signal_analysis` tables) are
modelled as append-only lists.
-/

/-! ### Credential store (`DatabaseManager`) -/

/-- One row of the `users` table: `id INTEGER PRIMARY KEY AUTOINCREMENT`,
`username TEXT UNIQUE NOT NULL`, `password TEXT NOT NULL` (the hex digest),
`user_type TEXT NOT NULL`. -/
structure UserRow where
  id : Nat
  username : String
  password : String
  user_type : String
deriving DecidableEq, Repr

/-- The `users` table plus the AUTOINCREMENT sequence value that the next
inserted row will receive. -/
structure UsersDB where
  rows : List UserRow
  nextId : Nat
deriving DecidableEq, Repr

/-- A fresh database: no users, AUTOINCREMENT ids start at 1. -/
def emptyUsersDB : UsersDB := ⟨[], 1⟩

/-- `DatabaseManager.register_user`: INSERT a row `(NULL, username, hash(password),
user_type)`.  The UNIQUE constraint on `username` makes the INSERT raise
`sqlite3.IntegrityError` when the username is taken, in which case the handler
returns `False` and the table is unchanged.  `hash` is the SHA-256 hex digest,
treated as an opaque external function. -/
def register_user (hash : String → String) (db : UsersDB)
    (username password user_type : String) : Bool × UsersDB :=
  if db.rows.any (fun r => r.username = username) then
    (false, db)
  else
    (true, { rows := db.rows ++ [⟨db.nextId, username, hash password, user_type⟩],
             nextId := db.nextId + 1 })

/-- `DatabaseManager.login_user`: `SELECT id, user_type FROM users WHERE
username=? AND password=?` followed by `fetchone()` — the first row matching
both the username and the recomputed digest, or `None`. -/
def login_user (hash : String → String) (db : UsersDB)
    (username password : String) : Option (Nat × String) :=
  (db.rows.find? (fun r => r.username = username ∧ r.password = hash password)).map
    (fun r => (r.id, r.user_type))

/-- Outcome reported by `LoginWindow.handle_register` via message boxes. -/
inductive RegMsg
  | missingFields
  | success
  | userExists
deriving DecidableEq, Repr

/-- `LoginWindow.handle_register`: reads the two text fields and the radio
buttons; rejects when either field is empty (Python truthiness of `str`),
otherwise calls `register_user` and reports the outcome. -/
def handle_register (hash : String → String) (db : UsersDB)
    (username password : String) (imagenChecked : Bool) : RegMsg × UsersDB :=
  let user_type := if imagenChecked then "imagen" else "senal"
  if username = "" ∨ password = "" then
    (RegMsg.missingFields, db)
  else
    match register_user hash db username password user_type with
    | (true, db') => (RegMsg.success, db')
    | (false, db') => (RegMsg.userExists, db')

/-- The window constructed by the `MainWindow.__new__` factory. -/
inductive Window
  | image (user_id : Nat)
  | signal (user_id : Nat)
deriving DecidableEq, Repr

/-- `MainWindow.__new__`: dispatches on the stored role string; exactly the
role `'imagen'` yields the image-expert window, every other value falls to the
`else` branch and yields the signal-expert window. -/
def MainWindow_new (user_id : Nat) (user_type : String) : Window :=
  if user_type = "imagen" then Window.image user_id else Window.signal user_id

/-! ### Images and the OpenCV operations used by `ImageExpertWindow`

A grayscale image is a pixel function on ℤ × ℤ together with its valid region
`[0, h) × [0, w)`.  The OpenCV calls made by the source (`cv2.threshold` with
`THRESH_BINARY_INV + THRESH_OTSU`, `cv2.morphologyEx`, `cv2.connectedComponents`)
are external capabilities; they are embedded below by their exact-arithmetic
semantics. -/

structure GImg where
  h : Nat
  w : Nat
  pix : Int → Int → Nat

/-- Pixel lookup with a default outside the valid region (OpenCV's default
border handling for morphology: out-of-range counts as the neutral element,
`255` for erosion and `0` for dilation, so the border never shrinks or grows
the result). -/
def valOr (B : GImg) (d : Nat) (r c : Int) : Nat :=
  if 0 ≤ r ∧ r < (B.h : Int) ∧ 0 ≤ c ∧ c < (B.w : Int) then B.pix r c else d

/-- Offsets covered by a `k × k` all-ones structuring element
(`np.ones((k,k), np.uint8)`) anchored at its centre. -/
def offs (k : Nat) : List (Int × Int) :=
  (List.range k).bind
    (fun i => (List.range k).map (fun j => ((i : Int) - (k / 2 : Nat), (j : Int) - (k / 2 : Nat))))

/-- `cv2.erode` with a `k × k` all-ones kernel: pointwise minimum over the
structuring element. -/
def erodeK (k : Nat) (B : GImg) : GImg :=
  { B with pix := fun r c => ((offs k).map (fun o => valOr B 255 (r + o.1) (c + o.2))).foldr min 255 }

/-- `cv2.dilate` with a `k × k` all-ones kernel: pointwise maximum over the
structuring element. -/
def dilateK (k : Nat) (B : GImg) : GImg :=
  { B with pix := fun r c => ((offs k).map (fun o => valOr B 0 (r + o.1) (c + o.2))).foldr max 0 }

/-- The morphological operations offered in the image-analysis tab
(`op_map` in `apply_morphological`). -/
inductive MorphOp
  | opening
  | closing
  | gradient
deriving DecidableEq, Repr

/-- `cv2.morphologyEx` (single iteration): opening = dilate ∘ erode,
closing = erode ∘ dilate, gradient = dilate − erode. -/
def morphologyEx : MorphOp → Nat → GImg → GImg
  | MorphOp.opening, k, B => dilateK k (erodeK k B)
  | MorphOp.closing, k, B => erodeK k (dilateK k B)
  | MorphOp.gradient, k, B =>
      { B with pix := fun r c => (dilateK k B).pix r c - (erodeK k B).pix r c }

/-- All pixel values of the valid region, row-major. -/
def pixList (B : GImg) : List Nat :=
  (List.range B.h).bind (fun r => (List.range B.w).map (fun c => B.pix (r : Int) (c : Int)))

/-- Number of pixel values `≤ t` (size of Otsu's class 0 at threshold `t`). -/
def countLe (l : List Nat) (t : Nat) : Nat := (l.filter (fun v => decide (v ≤ t))).length

/-- Sum of pixel values `≤ t` (intensity mass of Otsu's class 0). -/
def sumLe (l : List Nat) (t : Nat) : Nat := (l.filter (fun v => decide (v ≤ t))).sum

/-- Numerator of the between-class variance at threshold `t`, cleared of
denominators: `(s0·n1 − s1·n0)²` where `n0,s0` count class 0 (values `≤ t`)
and `n1,s1` count class 1. -/
def otsuNum (l : List Nat) (t : Nat) : Nat :=
  ((sumLe l t : Int) * ((l.length - countLe l t : Nat) : Int)
    - ((l.sum - sumLe l t : Nat) : Int) * (countLe l t : Int)).natAbs ^ 2

/-- Denominator of the between-class variance at threshold `t`: `n0·n1`.
Zero exactly when one class is empty (such thresholds are skipped). -/
def otsuDen (l : List Nat) (t : Nat) : Nat := countLe l t * (l.length - countLe l t)

/-- One step of the Otsu scan: keep the best `(threshold, num, den)` so far,
replacing it only on a strict increase of the between-class variance
(`num/den`, compared by cross-multiplication), skipping thresholds with an
empty class. -/
def otsuStep (l : List Nat) (acc : Nat × Nat × Nat) (t : Nat) : Nat × Nat × Nat :=
  if otsuDen l t = 0 then acc
  else if acc.2.1 * otsuDen l t < otsuNum l t * acc.2.2 then (t, otsuNum l t, otsuDen l t)
  else acc

/-- Otsu's threshold over a pixel value list: first argmax of the
between-class variance over `t ∈ [0, 255]`. -/
def otsuThreshold (l : List Nat) : Nat :=
  ((List.range 256).foldl (otsuStep l) (0, 0, 1)).1

/-- `cv2.threshold(gray, 0, 255, cv2.THRESH_BINARY_INV + cv2.THRESH_OTSU)`:
the automatically chosen threshold. -/
def otsu (B : GImg) : Nat := otsuThreshold (pixList B)

/-- The `THRESH_BINARY_INV` transfer function at threshold `t`:
`dst = 0` if `src > t`, else `255`. -/
def thresholdBinaryInv (t : Nat) (B : GImg) : GImg :=
  { B with pix := fun r c => if t < B.pix r c then 0 else 255 }

/-- The valid pixel grid of an `h × w` image. -/
def gridSet (h w : Nat) : Finset (Int × Int) :=
  (Finset.Ico (0 : Int) (h : Int)) ×ˢ (Finset.Ico (0 : Int) (w : Int))

/-- Foreground (nonzero) pixels of an image, as a finite set. -/
def fgSet (B : GImg) : Finset (Int × Int) :=
  (gridSet B.h B.w).filter (fun p => B.pix p.1 p.2 ≠ 0)

/-- 8-connectivity (the `cv2.connectedComponents` default): Chebyshev
distance at most 1. -/
def near8 (p q : Int × Int) : Prop := (p.1 - q.1).natAbs ≤ 1 ∧ (p.2 - q.2).natAbs ≤ 1

instance (p q : Int × Int) : Decidable (near8 p q) := by unfold near8; infer_instance

/-- One closure step of 8-connectivity reachability inside `S`. -/
def ccStep (S R : Finset (Int × Int)) : Finset (Int × Int) :=
  R ∪ S.filter (fun q => ∃ p ∈ R, near8 p q)

/-- All pixels of `S` 8-connected to `p` (the closure stabilises within
`S.card` steps). -/
def reach (S : Finset (Int × Int)) (p : Int × Int) : Finset (Int × Int) :=
  (ccStep S)^[S.card] {p}

/-- Row-major (lexicographic) order on pixel coordinates. -/
def posLt (p q : Int × Int) : Prop := p.1 < q.1 ∨ (p.1 = q.1 ∧ p.2 < q.2)

instance (p q : Int × Int) : Decidable (posLt p q) := by unfold posLt; infer_instance

/-- `p` is the canonical (row-major least) representative of its component. -/
def isRep (S : Finset (Int × Int)) (p : Int × Int) : Prop := ∀ q ∈ reach S p, ¬ posLt q p

instance (S : Finset (Int × Int)) (p : Int × Int) : Decidable (isRep S p) := by
  unfold isRep; infer_instance

/-- Number of 8-connected components of a finite pixel set: one canonical
representative per component. -/
def ccCount (S : Finset (Int × Int)) : Nat := (S.filter (fun p => isRep S p)).card

/-- Semantics of `cv2.connectedComponents`: `num_labels` is the background
label 0 plus one label per 8-connected foreground component. -/
def connectedComponentsCount (B : GImg) : Nat := 1 + ccCount (fgSet B)

/-- `ImageExpertWindow.count_cells` on a single-channel image: Otsu inverse
binarisation, opening with a 3×3 all-ones kernel and `iterations=2`
(erode, erode, dilate, dilate), then `num_labels - 1`. -/
def count_cells_core (img : GImg) : Nat :=
  let binary := thresholdBinaryInv (otsu img) img
  let opening := dilateK 3 (dilateK 3 (erodeK 3 (erodeK 3 binary)))
  connectedComponentsCount opening - 1

/-! ### Synthetic blob images for the cell-count property -/

/-- An axis-aligned square blob: top-left corner `(r, c)`, side `s`. -/
structure Blob where
  r : Int
  c : Int
  s : Nat
deriving DecidableEq, Repr

/-- The pixel cells covered by a blob. -/
def Blob.cells (b : Blob) : Finset (Int × Int) :=
  (Finset.Ico b.r (b.r + b.s)) ×ˢ (Finset.Ico b.c (b.c + b.s))

/-- The union of the cells of a list of blobs. -/
def blobCells (bs : List Blob) : Finset (Int × Int) :=
  bs.foldr (fun b acc => b.cells ∪ acc) ∅

/-- A synthetic binary micrograph: dark (0) blobs on a bright (255)
background — the polarity `THRESH_BINARY_INV` selects as foreground. -/
def syntheticImg (h w : Nat) (bs : List Blob) : GImg :=
  { h := h, w := w, pix := fun r c => if (r, c) ∈ blobCells bs then 0 else 255 }

/-- The blob sits inside the image with a margin of at least one background
pixel on every side. -/
def blobOK (h w : Nat) (b : Blob) : Prop :=
  1 ≤ b.r ∧ 1 ≤ b.c ∧ b.r + b.s + 1 ≤ (h : Int) ∧ b.c + b.s + 1 ≤ (w : Int)

instance (h w : Nat) (b : Blob) : Decidable (blobOK h w b) := by unfold blobOK; infer_instance

/-- Two blobs are well separated: their row intervals or their column
intervals are at least 3 pixels apart (Chebyshev distance ≥ 3 between any
two of their cells). -/
def farBlobs (b b' : Blob) : Prop :=
  b.r + b.s + 2 ≤ b'.r ∨ b'.r + b'.s + 2 ≤ b.r ∨ b.c + b.s + 2 ≤ b'.c ∨ b'.c + b'.s + 2 ≤ b.c

instance (b b' : Blob) : Decidable (farBlobs b b') := by unfold farBlobs; infer_instance

/-- An admissible synthetic image configuration: every blob has side at least
`minSide`, sits with margin inside the `h × w` frame, and the blobs are
pairwise well separated. -/
def goodBlobs (h w minSide : Nat) (bs : List Blob) : Prop :=
  (∀ b ∈ bs, blobOK h w b ∧ minSide ≤ b.s) ∧ bs.Pairwise farBlobs

instance (h w m : Nat) (bs : List Blob) : Decidable (goodBlobs h w m bs) := by
  unfold goodBlobs; infer_instance

/-- Erosion by the 3×3 kernel shrinks a square blob one pixel on each side. -/
def shrinkB (b : Blob) : Blob := ⟨b.r + 1, b.c + 1, b.s - 2⟩

/-- Dilation by the 3×3 kernel grows a square blob one pixel on each side. -/
def growB (b : Blob) : Blob := ⟨b.r - 1, b.c - 1, b.s + 2⟩

/-! ### Audit log (`dicom_files`, `image_analysis`, `signal_analysis` tables) -/

/-- One row of `dicom_files` as inserted by `save_dicom_analysis` (the
`study_date` and `modality` columns are never populated by the insert). -/
structure DicomRecord where
  patient_id : String
  patient_name : String
  dicom_path : String
  nifti_path : String
  user_id : Nat
deriving DecidableEq, Repr

/-- One row of `image_analysis` as inserted by `save_image_analysis`. -/
structure ImageAnalysisRecord where
  file_path : String
  analysis_type : String
  parameters : String
  result : String
  user_id : Nat
deriving DecidableEq, Repr

/-- One row of `signal_analysis` as inserted by `save_signal_analysis`. -/
structure SignalAnalysisRecord where
  file_path : String
  signal_type : String
  analysis_type : String
  parameters : String
  result : String
  user_id : Nat
deriving DecidableEq, Repr

/-- The three append-only audit tables. -/
structure LogDB where
  dicom : List DicomRecord
  image : List ImageAnalysisRecord
  signal : List SignalAnalysisRecord
deriving DecidableEq, Repr

/-- A fresh audit log. -/
def emptyLogDB : LogDB := ⟨[], [], []⟩

/-- Total number of audit records across the three tables. -/
def auditCount (db : LogDB) : Nat := db.dicom.length + db.image.length + db.signal.length

/-- `DatabaseManager.save_dicom_analysis`: append one `dicom_files` row. -/
def save_dicom_analysis (db : LogDB) (pid pname dpath npath : String) (uid : Nat) : LogDB :=
  { db with dicom := db.dicom ++ [⟨pid, pname, dpath, npath, uid⟩] }

/-- `DatabaseManager.save_image_analysis`: append one `image_analysis` row. -/
def save_image_analysis (db : LogDB) (fp ty params result : String) (uid : Nat) : LogDB :=
  { db with image := db.image ++ [⟨fp, ty, params, result, uid⟩] }

/-- `DatabaseManager.save_signal_analysis`: append one `signal_analysis` row. -/
def save_signal_analysis (db : LogDB) (fp sigty ty params result : String) (uid : Nat) : LogDB :=
  { db with signal := db.signal ++ [⟨fp, sigty, ty, params, result, uid⟩] }

/-! ### Image-expert window state and operations -/

/-- A Qt slider's observable configuration. -/
structure SliderCfg where
  minV : Int
  maxV : Int
  value : Int
  enabled : Bool
deriving DecidableEq, Repr

/-- A freshly constructed `QSlider`: range 0–99, value 0; `setup_dicom_tab`
disables it.  The minimum is never changed anywhere in the program. -/
def initSlider : SliderCfg := ⟨0, 99, 0, false⟩

/-- The per-axis slider setup loop shared verbatim by `load_dicom` and
`view_nifti`: `slider.setMaximum(dim - 1); slider.setValue(dim // 2);
slider.setEnabled(True)`. -/
def setSliderFor (sl : SliderCfg) (dim : Nat) : SliderCfg :=
  { sl with maxV := (dim : Int) - 1, value := ((dim / 2 : Nat) : Int), enabled := true }

/-- An integer position is selectable on a slider iff it lies between the
slider's minimum and maximum. -/
def sliderSelectable (sl : SliderCfg) (k : Int) : Prop := sl.minV ≤ k ∧ k ≤ sl.maxV

/-- The mutable state of `ImageExpertWindow`. -/
structure ImageWin where
  user_id : Nat
  dicom_volume : Option (Nat × Nat × Nat)
  current_image : Option GImg
  current_image_path : Option String
  sliderAxial : SliderCfg
  sliderCoronal : SliderCfg
  sliderSagital : SliderCfg
  cell_label : String
  patient_info : String

/-- `ImageExpertWindow.__init__` + `setup_ui`. -/
def initImageWin (uid : Nat) : ImageWin :=
  ⟨uid, none, none, none, initSlider, initSlider, initSlider,
   "Células detectadas: -", "No hay datos cargados"⟩

/-- What a successful DICOM directory read yields: the stacked volume's shape
and the first slice's patient metadata. -/
structure DicomLoadResult where
  shape : Nat × Nat × Nat
  patientName : String
  patientId : String
deriving DecidableEq, Repr

/-- `ImageExpertWindow.load_dicom`.  The directory dialog and the
pydicom/numpy reads are external: `none` models a cancelled dialog,
`some (dir, none)` a read/parse exception (caught; aborts before any
database write), `some (dir, some res)` a successful stack.  On success the
three sliders are configured, the patient info label set, and exactly one
`dicom_files` row is inserted (with empty `nifti_path`). -/
def load_dicom (w : ImageWin) (db : LogDB)
    (sel : Option (String × Option DicomLoadResult)) : ImageWin × LogDB :=
  match sel with
  | none => (w, db)
  | some (_, none) => (w, db)
  | some (dir, some res) =>
      ({ w with dicom_volume := some res.shape,
                sliderAxial := setSliderFor w.sliderAxial res.shape.1,
                sliderCoronal := setSliderFor w.sliderCoronal res.shape.2.1,
                sliderSagital := setSliderFor w.sliderSagital res.shape.2.2,
                patient_info := "Paciente: " ++ res.patientName ++ " | ID: " ++ res.patientId },
       save_dicom_analysis db res.patientId res.patientName dir ("") w.user_id)

/-- `ImageExpertWindow.convert_to_nifti`: does nothing without a loaded
volume; otherwise asks for a path and writes the NIfTI file.  The returned
flag is the success message box.  No audit record is ever written. -/
def convert_to_nifti (w : ImageWin) (db : LogDB) (pathSel : Option String) :
    ImageWin × LogDB × Bool :=
  match w.dicom_volume with
  | none => (w, db, false)
  | some _ =>
      match pathSel with
      | none => (w, db, false)
      | some _ => (w, db, true)

/-- `ImageExpertWindow.view_nifti`: load an exported volume container
(`none` = dialog cancelled, `some (fp, none)` = read exception) and
re-expose the three-axis viewing contract.  No audit record is written. -/
def view_nifti (w : ImageWin) (db : LogDB)
    (sel : Option (String × Option (Nat × Nat × Nat))) : ImageWin × LogDB :=
  match sel with
  | none => (w, db)
  | some (_, none) => (w, db)
  | some (_, some shape) =>
      ({ w with dicom_volume := some shape,
                sliderAxial := setSliderFor w.sliderAxial shape.1,
                sliderCoronal := setSliderFor w.sliderCoronal shape.2.1,
                sliderSagital := setSliderFor w.sliderSagital shape.2.2 },
       db)

/-- `ImageExpertWindow.load_image`: `cv2.imread` may return no image for an
unreadable path (`None`), which the code stores unchecked.  No audit record
is written. -/
def load_image (w : ImageWin) (db : LogDB)
    (sel : Option (String × Option GImg)) : ImageWin × LogDB :=
  match sel with
  | none => (w, db)
  | some (fp, r) =>
      ({ w with current_image := r, current_image_path := some fp }, db)

/-- Display name of a morphological operation (the combo box entries). -/
def morphOpName : MorphOp → String
  | MorphOp.opening => "Apertura"
  | MorphOp.closing => "Cierre"
  | MorphOp.gradient => "Gradiente"

/-- `ImageExpertWindow.apply_morphological`: without a current image nothing
happens; otherwise the chosen operation replaces the working image and one
`image_analysis` row is inserted with the operation name and kernel size as
parameters and result `'success'`. -/
def apply_morphological (w : ImageWin) (db : LogDB) (op : MorphOp) (k : Nat) :
    ImageWin × LogDB :=
  match w.current_image with
  | none => (w, db)
  | some img =>
      ({ w with current_image := some (morphologyEx op k img) },
       save_image_analysis db (w.current_image_path.getD ("")) ("morphological")
         ("operation=" ++ morphOpName op ++ " kernel_size=" ++ toString k) ("success") w.user_id)

/-- `ImageExpertWindow.count_cells`: without a current image nothing happens;
otherwise the count is computed, displayed, and one `image_analysis` row is
inserted with the count as result. -/
def count_cells (w : ImageWin) (db : LogDB) : ImageWin × LogDB :=
  match w.current_image with
  | none => (w, db)
  | some img =>
      let cnt := count_cells_core img
      ({ w with cell_label := "Células detectadas: " ++ toString cnt },
       save_image_analysis db (w.current_image_path.getD ("")) ("cell_count")
         ("method=connected_components") (toString cnt) w.user_id)

/-- `ImageExpertWindow.save_analysis`: writes the working image to the chosen
path.  The returned flag is the success message box.  No audit record is ever
written. -/
def save_analysis (w : ImageWin) (db : LogDB) (pathSel : Option String) :
    ImageWin × LogDB × Bool :=
  match w.current_image, w.current_image_path with
  | some _, some _ =>
      match pathSel with
      | none => (w, db, false)
      | some _ => (w, db, true)
  | _, _ => (w, db, false)

/-! ### Numeric formatting (`f"{x:.2f}"`) and pandas/numpy statistics

The statistics delegated to numpy/pandas are embedded over ℚ; the two-decimal
formatting of Python format strings is embedded as round-half-to-even on
hundredths. -/

/-- Two-digit zero padding of a value below 100. -/
def pad2 (n : Nat) : String := if n < 10 then "0" ++ toString n else toString n

/-- Nearest integer to `100·q`, ties to even (the rounding of `f"{x:.2f}"`). -/
def roundHalfEvenCenti (q : ℚ) : Int :=
  let x := 100 * q
  let f := ⌊x⌋
  if x - f < 1 / 2 then f
  else if (1 : ℚ) / 2 < x - f then f + 1
  else if f % 2 = 0 then f else f + 1

/-- `f"{q:.2f}"` for an exact rational value. -/
def format2 (q : ℚ) : String :=
  let c := roundHalfEvenCenti q
  (if c < 0 then "-" else "") ++ toString (c.natAbs / 100) ++ "." ++ pad2 (c.natAbs % 100)

/-- Nearest natural number to `100·√v` for `v ≥ 0`, ties to even. -/
def sqrtCentiRounded (v : ℚ) : Nat :=
  let n := Nat.sqrt (⌊10000 * v⌋).toNat
  if (((2 * n + 1) ^ 2 : Nat) : ℚ) < 40000 * v then n + 1
  else if 40000 * v = (((2 * n + 1) ^ 2 : Nat) : ℚ) then (if n % 2 = 0 then n else n + 1)
  else n

/-- `f"{sqrt(v):.2f}"` for an exact nonnegative rational radicand. -/
def fmtSqrt2 (v : ℚ) : String :=
  toString (sqrtCentiRounded v / 100) ++ "." ++ pad2 (sqrtCentiRounded v % 100)

/-- `np.mean` / `pandas.Series.mean`: arithmetic mean. -/
def pandasMean (xs : List ℚ) : ℚ := xs.sum / xs.length

/-- `pandas.Series.var` with the default `ddof=1` (sample variance). -/
def sampleVar (xs : List ℚ) : ℚ :=
  ((xs.map (fun x => (x - pandasMean xs) ^ 2)).sum) / ((xs.length : ℚ) - 1)

/-- `np.var` with the default `ddof=0` (population variance). -/
def popVar (xs : List ℚ) : ℚ :=
  ((xs.map (fun x => (x - pandasMean xs) ^ 2)).sum) / (xs.length : ℚ)

/-- `np.max` / `pandas.Series.max` of a nonempty list. -/
def listMax : List ℚ → ℚ
  | [] => 0
  | x :: r => r.foldl max x

/-- `np.min` / `pandas.Series.min` of a nonempty list. -/
def listMin : List ℚ → ℚ
  | [] => 0
  | x :: r => r.foldl min x

/-! ### Signal-expert window state and operations -/

/-- A named array inside a MATLAB container, as `scipy.io.loadmat` returns it
(1-D or 2-D numeric). -/
inductive MatArr
  | one (xs : List ℚ)
  | two (rows : List (List ℚ))
deriving DecidableEq, Repr

/-- All values of a MAT array (numpy reductions flatten). -/
def matValues : MatArr → List ℚ
  | MatArr.one xs => xs
  | MatArr.two rows => rows.join

/-- A pandas dataframe column: numeric dtype or non-numeric (object) dtype. -/
inductive Col
  | nums (xs : List ℚ)
  | strs (xs : List String)
deriving DecidableEq, Repr

/-- The structured content of the `analyze_csv` report. -/
inductive CsvAnalysis
  | numericR (mean std mx mn : String) (count : Nat)
  | catR (counts : List (String × Nat))
deriving DecidableEq, Repr

/-- Distinct values in order of first appearance. -/
def dedupFirst : List String → List String
  | [] => []
  | x :: xs => x :: dedupFirst (xs.filter (fun y => decide (y ≠ x)))
termination_by l => l.length
decreasing_by simp only [List.length_cons]; exact Nat.lt_succ_of_le (List.length_filter_le _ _)

/-- `pandas.Series.value_counts()`: the frequency of each distinct value,
sorted by descending frequency (stable, so ties keep first-appearance
order). -/
def value_counts (xs : List String) : List (String × Nat) :=
  ((dedupFirst xs).map (fun v => (v, xs.count v))).mergeSort (fun a b => decide (b.2 ≤ a.2))

/-- The statistics block of `SignalExpertWindow.analyze_csv`: for a numeric
column the pandas mean / sample std / max / min, each rendered with
`f"...:.2f"`, plus the row count; for a non-numeric column the
`value_counts()` table.  (pandas renders the empty-column and
single-element-std cases as `nan`.) -/
def analyze_csv_core : Col → CsvAnalysis
  | Col.nums xs =>
      CsvAnalysis.numericR
        (if xs.isEmpty then "nan" else format2 (pandasMean xs))
        (if xs.length ≤ 1 then "nan" else fmtSqrt2 (sampleVar xs))
        (if xs.isEmpty then "nan" else format2 (listMax xs))
        (if xs.isEmpty then "nan" else format2 (listMin xs))
        xs.length
  | Col.strs xs => CsvAnalysis.catR (value_counts xs)

/-- The report text assembled by `analyze_csv`. -/
def renderCsvAnalysis (colName : String) : CsvAnalysis → String
  | CsvAnalysis.numericR m s mx mn n =>
      "Análisis de " ++ colName ++ ":\nMedia: " ++ m ++ "\nDesviación: " ++ s ++
        "\nMáximo: " ++ mx ++ "\nMínimo: " ++ mn ++ "\nCantidad: " ++ toString n
  | CsvAnalysis.catR counts =>
      "Conteo de valores para " ++ colName ++ ":\n" ++
        String.intercalate "\n" (counts.map (fun p => p.1 ++ " " ++ toString p.2))

/-- The report text assembled by `analyze_signal` (numpy statistics:
population std). -/
def mat_analysis_result (xs : List ℚ) : String :=
  "Media: " ++ format2 (pandasMean xs) ++ "\nDesviación: " ++ fmtSqrt2 (popVar xs) ++
    "\nMáximo: " ++ format2 (listMax xs) ++ "\nMínimo: " ++ format2 (listMin xs)

/-- The mutable state of `SignalExpertWindow`.  Combo-box texts are modelled
as `Option String`, `none` standing for the empty text on which the
handlers' truthiness guards abort. -/
structure SignalWin where
  user_id : Nat
  mat_data : Option (List (String × MatArr))
  signal_sel : Option String
  df : Option (List (String × Col))
  csv_x : Option String
  csv_y : Option String
deriving DecidableEq, Repr

/-- `SignalExpertWindow.__init__` + `setup_ui`. -/
def initSignalWin (uid : Nat) : SignalWin := ⟨uid, none, none, none, none, none⟩

/-- `SignalExpertWindow.load_mat`: on a successful read, stores the
container, fills the combo with the names not starting with `'__'` (the
scipy metadata convention), and inserts one `signal_analysis` row recording
the file path.  A cancelled dialog or read error writes nothing. -/
def load_mat (w : SignalWin) (db : LogDB)
    (sel : Option (String × Option (List (String × MatArr)))) : SignalWin × LogDB :=
  match sel with
  | none => (w, db)
  | some (_, none) => (w, db)
  | some (fp, some m) =>
      let keys := (m.map Prod.fst).filter (fun k => decide (¬ k.startsWith ("__")))
      ({ w with mat_data := some m, signal_sel := keys.head? },
       save_signal_analysis db fp ("MAT") ("load") ("") ("success") w.user_id)

/-- `SignalExpertWindow.plot_signal`: aborts silently without a selected
signal; a lookup failure raises inside the `try` and writes nothing; a
successful plot inserts one `signal_analysis` row whose `file_path` is the
empty string. -/
def plot_signal (w : SignalWin) (db : LogDB) : SignalWin × LogDB :=
  match w.signal_sel with
  | none => (w, db)
  | some sel =>
      match w.mat_data with
      | none => (w, db)
      | some m =>
          match m.lookup sel with
          | none => (w, db)
          | some _ =>
              (w, save_signal_analysis db ("") ("MAT") ("plot") ("signal=" ++ sel)
                    ("success") w.user_id)

/-- `SignalExpertWindow.analyze_signal`: like `plot_signal`, but the numpy
reductions raise on an empty array (no record); on success one
`signal_analysis` row is inserted with empty `file_path` and the formatted
statistics as result. -/
def analyze_signal (w : SignalWin) (db : LogDB) : SignalWin × LogDB :=
  match w.signal_sel with
  | none => (w, db)
  | some sel =>
      match w.mat_data with
      | none => (w, db)
      | some m =>
          match m.lookup sel with
          | none => (w, db)
          | some arr =>
              if (matValues arr).isEmpty then (w, db)
              else
                (w, save_signal_analysis db ("") ("MAT") ("basic_analysis")
                      ("signal=" ++ sel) (mat_analysis_result (matValues arr)) w.user_id)

/-- `SignalExpertWindow.load_csv`: on a successful read stores the dataframe,
fills both axis combos with the column names, and inserts one
`signal_analysis` row recording the file path. -/
def load_csv (w : SignalWin) (db : LogDB)
    (sel : Option (String × Option (List (String × Col)))) : SignalWin × LogDB :=
  match sel with
  | none => (w, db)
  | some (_, none) => (w, db)
  | some (fp, some cols) =>
      ({ w with df := some cols,
                csv_x := (cols.map Prod.fst).head?,
                csv_y := (cols.map Prod.fst).head? },
       save_signal_analysis db fp ("CSV") ("load")
         ("columns=" ++ String.intercalate "," (cols.map Prod.fst)) ("success") w.user_id)

/-- `SignalExpertWindow.plot_csv`: needs a dataframe and both axis texts;
a column lookup failure raises (no record); a successful plot inserts one
`signal_analysis` row with empty `file_path`. -/
def plot_csv (w : SignalWin) (db : LogDB) : SignalWin × LogDB :=
  match w.df, w.csv_x, w.csv_y with
  | some cols, some x, some y =>
      match cols.lookup x, cols.lookup y with
      | some _, some _ =>
          (w, save_signal_analysis db ("") ("CSV") ("plot")
                ("x_axis=" ++ x ++ " y_axis=" ++ y) ("success") w.user_id)
      | _, _ => (w, db)
  | _, _, _ => (w, db)

/-- `SignalExpertWindow.analyze_csv`: needs a dataframe and a Y column text;
on success pops the analysis dialog and inserts one `signal_analysis` row
with empty `file_path` and the rendered report as result. -/
def analyze_csv (w : SignalWin) (db : LogDB) : SignalWin × LogDB :=
  match w.df, w.csv_y with
  | some cols, some y =>
      match cols.lookup y with
      | none => (w, db)
      | some col =>
          (w, save_signal_analysis db ("") ("CSV") ("basic_analysis")
                ("column=" ++ y) (renderCsvAnalysis y (analyze_csv_core col)) w.user_id)
  | _, _ => (w, db)

/-! ### Claims about the credential store and the role router -/

/-- C1: for every (username, password, role) triple with non-empty username
and password where no user with that username exists, `register_user`
succeeds and a subsequent `login_user` with the same credentials returns the
newly created user's id together with the role given at registration. -/
theorem register_then_login (hash : String → String) (db : UsersDB)
    (u p role : String) (hu : u ≠ "") (hp : p ≠ "")
    (hfresh : ∀ r ∈ db.rows, r.username ≠ u) :
    (register_user hash db u p role).1 = true ∧
      login_user hash (register_user hash db u p role).2 u p = some (db.nextId, role) := by
  have hany : ¬ (db.rows.any (fun r => r.username = u) = true) := by
    simp only [List.any_eq_true, decide_eq_true_eq, not_exists]
    intro r
    rintro ⟨hr, h⟩
    exact hfresh r hr h
  constructor
  · simp [register_user, hany]
  · simp only [register_user, if_neg hany, login_user]
    rw [List.find?_append]
    have hnone : db.rows.find? (fun r => r.username = u ∧ r.password = hash p) = none := by
      rw [List.find?_eq_none]
      intro r hr
      simp only [decide_eq_true_eq, not_and]
      intro h
      exact absurd h (hfresh r hr)
    rw [hnone]
    simp

/-- C1 witness: a concrete registration followed by authentication. -/
theorem register_then_login_witness :
    ("ana" ≠ "" ∧ "pw" ≠ "" ∧ ∀ r ∈ emptyUsersDB.rows, r.username ≠ "ana") ∧
      (register_user id emptyUsersDB ("ana") ("pw") ("imagen")).1 = true ∧
      login_user id (register_user id emptyUsersDB ("ana") ("pw") ("imagen")).2
        ("ana") ("pw") = some (emptyUsersDB.nextId, "imagen") :=
  ⟨⟨by decide, by decide, by intro r hr; cases hr⟩,
   register_then_login id emptyUsersDB ("ana") ("pw") ("imagen")
     (by decide) (by decide) (by intro r hr; cases hr)⟩

/-- C2: registering an already-used username fails and leaves the store
completely unchanged — the existing rows (ids, digests, roles) and the
AUTOINCREMENT sequence are untouched and no row is added. -/
theorem register_duplicate_unchanged (hash : String → String) (db : UsersDB)
    (u p role : String) (hdup : ∃ r ∈ db.rows, r.username = u) :
    (register_user hash db u p role).1 = false ∧
      (register_user hash db u p role).2 = db := by
  have hany : db.rows.any (fun r => r.username = u) = true := by
    simp only [List.any_eq_true, decide_eq_true_eq]
    exact hdup
  constructor <;> simp [register_user, hany]

/-- C2 witness: re-registering an existing username at a concrete store. -/
theorem register_duplicate_unchanged_witness :
    (∃ r ∈ (UsersDB.mk [⟨1, "ana", "h", "imagen"⟩] 2).rows, r.username = "ana") ∧
      (register_user id (UsersDB.mk [⟨1, "ana", "h", "imagen"⟩] 2) ("ana") ("x") ("senal")).1 = false ∧
      (register_user id (UsersDB.mk [⟨1, "ana", "h", "imagen"⟩] 2) ("ana") ("x") ("senal")).2 =
        UsersDB.mk [⟨1, "ana", "h", "imagen"⟩] 2 :=
  ⟨⟨⟨1, "ana", "h", "imagen"⟩, by simp⟩,
   register_duplicate_unchanged id _ ("ana") ("x") ("senal")
     ⟨⟨1, "ana", "h", "imagen"⟩, by simp⟩⟩

/-- C3: authenticating an unknown username and authenticating a known
username with a wrong-digest password produce the same `None` outcome —
the two failures are indistinguishable to the caller. -/
theorem login_failures_indistinguishable (hash : String → String) (db : UsersDB)
    (u1 p1 u2 p2 : String)
    (h1 : ∀ r ∈ db.rows, r.username ≠ u1)
    (h2 : ∃ r ∈ db.rows, r.username = u2)
    (h3 : ∀ r ∈ db.rows, r.username = u2 → r.password ≠ hash p2) :
    login_user hash db u1 p1 = login_user hash db u2 p2 ∧
      login_user hash db u2 p2 = none := by
  have e1 : login_user hash db u1 p1 = none := by
    have hf : db.rows.find? (fun r => decide (r.username = u1 ∧ r.password = hash p1)) = none := by
      rw [List.find?_eq_none]
      intro r hr
      simp only [decide_eq_true_eq, not_and]
      intro h
      exact absurd h (h1 r hr)
    simp only [login_user, hf, Option.map_none']
  have e2 : login_user hash db u2 p2 = none := by
    have hf : db.rows.find? (fun r => decide (r.username = u2 ∧ r.password = hash p2)) = none := by
      rw [List.find?_eq_none]
      intro r hr
      simp only [decide_eq_true_eq, not_and]
      exact h3 r hr
    simp only [login_user, hf, Option.map_none']
  exact ⟨e1.trans e2.symm, e2⟩

/-- C3 witness: a concrete store where both failure modes coincide. -/
theorem login_failures_indistinguishable_witness :
    ((∀ r ∈ (UsersDB.mk [⟨1, "ana", "pw", "imagen"⟩] 2).rows, r.username ≠ "bob") ∧
      (∃ r ∈ (UsersDB.mk [⟨1, "ana", "pw", "imagen"⟩] 2).rows, r.username = "ana") ∧
      (∀ r ∈ (UsersDB.mk [⟨1, "ana", "pw", "imagen"⟩] 2).rows,
        r.username = "ana" → r.password ≠ id "wrong")) ∧
      login_user id (UsersDB.mk [⟨1, "ana", "pw", "imagen"⟩] 2) ("bob") ("q") =
        login_user id (UsersDB.mk [⟨1, "ana", "pw", "imagen"⟩] 2) ("ana") ("wrong") ∧
      login_user id (UsersDB.mk [⟨1, "ana", "pw", "imagen"⟩] 2) ("ana") ("wrong") = none :=
  ⟨⟨by decide, ⟨⟨1, "ana", "pw", "imagen"⟩, by simp⟩, by decide⟩,
   login_failures_indistinguishable id _ ("bob") ("q") ("ana") ("wrong")
     (by decide) ⟨⟨1, "ana", "pw", "imagen"⟩, by simp⟩ (by decide)⟩

/-- C8: the store's `register_user` itself imposes no non-emptiness check —
with a fresh empty-string username it succeeds and creates the user — while
the UI handler `handle_register` rejects empty fields before the store is
reached, leaving the store untouched. -/
theorem register_empty_username (hash : String → String) (db : UsersDB)
    (p role : String) (hfresh : ∀ r ∈ db.rows, r.username ≠ "") :
    (register_user hash db ("") p role).1 = true ∧
      (register_user hash db ("") p role).2.rows =
        db.rows ++ [⟨db.nextId, "", hash p, role⟩] ∧
      (∀ q c, handle_register hash db ("") q c = (RegMsg.missingFields, db)) ∧
      (∀ u c, handle_register hash db u ("") c = (RegMsg.missingFields, db)) := by
  have hany : ¬ (db.rows.any (fun r => r.username = "") = true) := by
    simp only [List.any_eq_true, decide_eq_true_eq, not_exists]
    intro r
    rintro ⟨hr, h⟩
    exact hfresh r hr h
  refine ⟨by simp [register_user, hany], by simp [register_user, hany], ?_, ?_⟩
  · intro q c
    simp [handle_register]
  · intro u c
    simp [handle_register]

/-- C8 witness: empty-username registration on a fresh store. -/
theorem register_empty_username_witness :
    (∀ r ∈ emptyUsersDB.rows, r.username ≠ "") ∧
      (register_user id emptyUsersDB ("") ("pw") ("senal")).1 = true ∧
      (register_user id emptyUsersDB ("") ("pw") ("senal")).2.rows =
        emptyUsersDB.rows ++ [⟨emptyUsersDB.nextId, "", id "pw", "senal"⟩] ∧
      (∀ q c, handle_register id emptyUsersDB ("") q c = (RegMsg.missingFields, emptyUsersDB)) ∧
      (∀ u c, handle_register id emptyUsersDB u ("") c = (RegMsg.missingFields, emptyUsersDB)) :=
  ⟨(by intro r hr; cases hr),
   register_empty_username id emptyUsersDB ("pw") ("senal") (by intro r hr; cases hr)⟩

/-- C9: the role router is a non-exhaustive two-way branch — exactly the
role `'imagen'` constructs the image workflow and every other role string
whatsoever constructs the signal workflow. -/
theorem main_window_dispatch (uid : Nat) :
    MainWindow_new uid ("imagen") = Window.image uid ∧
      ∀ role : String, role ≠ "imagen" → MainWindow_new uid role = Window.signal uid := by
  constructor
  · simp [MainWindow_new]
  · intro role hrole
    simp [MainWindow_new, hrole]

/-- C9 witness: dispatch at the two seeded roles and at an out-of-range
role. -/
theorem main_window_dispatch_witness :
    (MainWindow_new 7 ("imagen") = Window.image 7 ∧
      ∀ role : String, role ≠ "imagen" → MainWindow_new 7 role = Window.signal 7) ∧
      ("senal" : String) ≠ "imagen" ∧ ("admin" : String) ≠ "imagen" :=
  ⟨main_window_dispatch 7, by decide, by decide⟩

/-! ### Claim about the three-axis viewing contract -/

/-- C5: after a successful volume load — from a DICOM slice directory or from
a NIfTI container — with shape `(A, B, C)`, the three per-axis view indices
are `(A / 2, B / 2, C / 2)` and each axis slider's selectable range is
exactly the integers `[0, dim − 1]` for that axis's extent. -/
theorem slider_view_contract (w : ImageWin) (db : LogDB)
    (dir fp pn pid : String) (A B C : Nat)
    (hA : 0 < A) (hB : 0 < B) (hC : 0 < C)
    (hminA : w.sliderAxial.minV = 0) (hminC : w.sliderCoronal.minV = 0)
    (hminS : w.sliderSagital.minV = 0) :
    ((load_dicom w db (some (dir, some ⟨(A, B, C), pn, pid⟩))).1.sliderAxial.value =
        ((A / 2 : Nat) : Int) ∧
      (load_dicom w db (some (dir, some ⟨(A, B, C), pn, pid⟩))).1.sliderCoronal.value =
        ((B / 2 : Nat) : Int) ∧
      (load_dicom w db (some (dir, some ⟨(A, B, C), pn, pid⟩))).1.sliderSagital.value =
        ((C / 2 : Nat) : Int) ∧
      (∀ k : Int,
        sliderSelectable (load_dicom w db (some (dir, some ⟨(A, B, C), pn, pid⟩))).1.sliderAxial k ↔
          0 ≤ k ∧ k ≤ (A : Int) - 1) ∧
      (∀ k : Int,
        sliderSelectable (load_dicom w db (some (dir, some ⟨(A, B, C), pn, pid⟩))).1.sliderCoronal k ↔
          0 ≤ k ∧ k ≤ (B : Int) - 1) ∧
      (∀ k : Int,
        sliderSelectable (load_dicom w db (some (dir, some ⟨(A, B, C), pn, pid⟩))).1.sliderSagital k ↔
          0 ≤ k ∧ k ≤ (C : Int) - 1)) ∧
    ((view_nifti w db (some (fp, some (A, B, C)))).1.sliderAxial.value = ((A / 2 : Nat) : Int) ∧
      (view_nifti w db (some (fp, some (A, B, C)))).1.sliderCoronal.value = ((B / 2 : Nat) : Int) ∧
      (view_nifti w db (some (fp, some (A, B, C)))).1.sliderSagital.value = ((C / 2 : Nat) : Int) ∧
      (∀ k : Int,
        sliderSelectable (view_nifti w db (some (fp, some (A, B, C)))).1.sliderAxial k ↔
          0 ≤ k ∧ k ≤ (A : Int) - 1) ∧
      (∀ k : Int,
        sliderSelectable (view_nifti w db (some (fp, some (A, B, C)))).1.sliderCoronal k ↔
          0 ≤ k ∧ k ≤ (B : Int) - 1) ∧
      (∀ k : Int,
        sliderSelectable (view_nifti w db (some (fp, some (A, B, C)))).1.sliderSagital k ↔
          0 ≤ k ∧ k ≤ (C : Int) - 1)) := by
  refine ⟨⟨rfl, rfl, rfl, ?_, ?_, ?_⟩, ⟨rfl, rfl, rfl, ?_, ?_, ?_⟩⟩ <;>
    intro k <;>
    simp [load_dicom, view_nifti, setSliderFor, sliderSelectable, hminA, hminC, hminS]

/-- C5 witness: a 4 × 6 × 9 volume loaded into a fresh window. -/
theorem slider_view_contract_witness :
    (0 < 4 ∧ 0 < 6 ∧ 0 < 9 ∧
      (initImageWin 1).sliderAxial.minV = 0 ∧
      (initImageWin 1).sliderCoronal.minV = 0 ∧
      (initImageWin 1).sliderSagital.minV = 0) ∧
      ((load_dicom (initImageWin 1) emptyLogDB (some ("d", some ⟨(4, 6, 9), "n", "i"⟩))).1.sliderAxial.value = ((4 / 2 : Nat) : Int) ∧
        (load_dicom (initImageWin 1) emptyLogDB (some ("d", some ⟨(4, 6, 9), "n", "i"⟩))).1.sliderCoronal.value = ((6 / 2 : Nat) : Int) ∧
        (load_dicom (initImageWin 1) emptyLogDB (some ("d", some ⟨(4, 6, 9), "n", "i"⟩))).1.sliderSagital.value = ((9 / 2 : Nat) : Int) ∧
        (∀ k : Int,
          sliderSelectable (load_dicom (initImageWin 1) emptyLogDB (some ("d", some ⟨(4, 6, 9), "n", "i"⟩))).1.sliderAxial k ↔
            0 ≤ k ∧ k ≤ (4 : Int) - 1) ∧
        (∀ k : Int,
          sliderSelectable (load_dicom (initImageWin 1) emptyLogDB (some ("d", some ⟨(4, 6, 9), "n", "i"⟩))).1.sliderCoronal k ↔
            0 ≤ k ∧ k ≤ (6 : Int) - 1) ∧
        (∀ k : Int,
          sliderSelectable (load_dicom (initImageWin 1) emptyLogDB (some ("d", some ⟨(4, 6, 9), "n", "i"⟩))).1.sliderSagital k ↔
            0 ≤ k ∧ k ≤ (9 : Int) - 1)) ∧
      ((view_nifti (initImageWin 1) emptyLogDB (some ("f", some (4, 6, 9)))).1.sliderAxial.value = ((4 / 2 : Nat) : Int) ∧
        (view_nifti (initImageWin 1) emptyLogDB (some ("f", some (4, 6, 9)))).1.sliderCoronal.value = ((6 / 2 : Nat) : Int) ∧
        (view_nifti (initImageWin 1) emptyLogDB (some ("f", some (4, 6, 9)))).1.sliderSagital.value = ((9 / 2 : Nat) : Int) ∧
        (∀ k : Int,
          sliderSelectable (view_nifti (initImageWin 1) emptyLogDB (some ("f", some (4, 6, 9)))).1.sliderAxial k ↔
            0 ≤ k ∧ k ≤ (4 : Int) - 1) ∧
        (∀ k : Int,
          sliderSelectable (view_nifti (initImageWin 1) emptyLogDB (some ("f", some (4, 6, 9)))).1.sliderCoronal k ↔
            0 ≤ k ∧ k ≤ (6 : Int) - 1) ∧
        (∀ k : Int,
          sliderSelectable (view_nifti (initImageWin 1) emptyLogDB (some ("f", some (4, 6, 9)))).1.sliderSagital k ↔
            0 ≤ k ∧ k ≤ (9 : Int) - 1)) :=
  ⟨⟨by decide, by decide, by decide, rfl, rfl, rfl⟩,
   slider_view_contract (initImageWin 1) emptyLogDB ("d") ("f") ("n") ("i") 4 6 9
     (by decide) (by decide) (by decide) rfl rfl rfl⟩

/-! ### Claims about the audit trail -/

/-- C10: every plot or statistics operation of the signal workflow appends a
`signal_analysis` record whose `file_path` field is the empty string, while
the two load operations record the actual file path. -/
theorem signal_record_paths :
    (∀ (uid : Nat) (s : String) (arr : MatArr) (rest : List (String × MatArr))
        (df : Option (List (String × Col))) (x y : Option String) (db : LogDB),
      (plot_signal ⟨uid, some ((s, arr) :: rest), some s, df, x, y⟩ db).2.signal =
        db.signal ++ [⟨"", "MAT", "plot", "signal=" ++ s, "success", uid⟩]) ∧
    (∀ (uid : Nat) (s : String) (q : ℚ) (qs : List ℚ) (rest : List (String × MatArr))
        (df : Option (List (String × Col))) (x y : Option String) (db : LogDB),
      (analyze_signal ⟨uid, some ((s, MatArr.one (q :: qs)) :: rest), some s, df, x, y⟩ db).2.signal =
        db.signal ++ [⟨"", "MAT", "basic_analysis", "signal=" ++ s,
          mat_analysis_result (q :: qs), uid⟩]) ∧
    (∀ (uid : Nat) (md : Option (List (String × MatArr))) (sel : Option String)
        (s : String) (col : Col) (rest : List (String × Col)) (db : LogDB),
      (plot_csv ⟨uid, md, sel, some ((s, col) :: rest), some s, some s⟩ db).2.signal =
        db.signal ++ [⟨"", "CSV", "plot", "x_axis=" ++ s ++ " y_axis=" ++ s, "success", uid⟩]) ∧
    (∀ (uid : Nat) (md : Option (List (String × MatArr))) (sel xsel : Option String)
        (s : String) (col : Col) (rest : List (String × Col)) (db : LogDB),
      (analyze_csv ⟨uid, md, sel, some ((s, col) :: rest), xsel, some s⟩ db).2.signal =
        db.signal ++ [⟨"", "CSV", "basic_analysis", "column=" ++ s,
          renderCsvAnalysis s (analyze_csv_core col), uid⟩]) ∧
    (∀ (w : SignalWin) (db : LogDB) (fp : String) (m : List (String × MatArr)),
      (load_mat w db (some (fp, some m))).2.signal =
        db.signal ++ [⟨fp, "MAT", "load", "", "success", w.user_id⟩]) ∧
    (∀ (w : SignalWin) (db : LogDB) (fp : String) (cols : List (String × Col)),
      (load_csv w db (some (fp, some cols))).2.signal =
        db.signal ++ [⟨fp, "CSV", "load",
          "columns=" ++ String.intercalate "," (cols.map Prod.fst), "success", w.user_id⟩]) := by
  refine ⟨?_, ?_, ?_, ?_, ?_, ?_⟩ <;> intros <;>
    simp [plot_signal, analyze_signal, plot_csv, analyze_csv, load_mat, load_csv,
      save_signal_analysis, List.lookup, matValues]

/-- C4 counterexample: a NIfTI export that runs to success (volume loaded,
output path chosen, success message box shown) appends zero audit records —
not the one record the claim requires for every successful operation. -/
theorem convert_to_nifti_success_no_record :
    (convert_to_nifti
        ⟨1, some (4, 4, 4), none, none, initSlider, initSlider, initSlider, "", ""⟩
        emptyLogDB (some ("out.nii"))).2.2 = true ∧
      auditCount (convert_to_nifti
        ⟨1, some (4, 4, 4), none, none, initSlider, initSlider, initSlider, "", ""⟩
        emptyLogDB (some ("out.nii"))).2.1 = auditCount emptyLogDB ∧
      ¬ (auditCount (convert_to_nifti
        ⟨1, some (4, 4, 4), none, none, initSlider, initSlider, initSlider, "", ""⟩
        emptyLogDB (some ("out.nii"))).2.1 = auditCount emptyLogDB + 1) :=
  ⟨rfl, rfl, by decide⟩

/-- C4 (amended): successful volume loads, morphological operations, cell
counts, MAT loads, MAT plots, MAT analyses, CSV loads, CSV plots and CSV
analyses append exactly one audit record, tagged with the acting user's id,
and their failed or aborted executions append none; the volume export, the
2D image load and the image save never append an audit record, even on
success. -/
theorem audit_record_discipline :
    (∀ (w : ImageWin) (db : LogDB) (dir : String) (res : DicomLoadResult),
      (load_dicom w db (some (dir, some res))).2 =
        { db with dicom := db.dicom ++ [⟨res.patientId, res.patientName, dir, "", w.user_id⟩] }) ∧
    (∀ (w : ImageWin) (db : LogDB), (load_dicom w db none).2 = db) ∧
    (∀ (w : ImageWin) (db : LogDB) (dir : String), (load_dicom w db (some (dir, none))).2 = db) ∧
    (∀ (w : ImageWin) (db : LogDB) (sel : Option String), (convert_to_nifti w db sel).2.1 = db) ∧
    (∀ (w : ImageWin) (db : LogDB) (sel : Option (String × Option (Nat × Nat × Nat))),
      (view_nifti w db sel).2 = db) ∧
    (∀ (w : ImageWin) (db : LogDB) (sel : Option (String × Option GImg)),
      (load_image w db sel).2 = db) ∧
    (∀ (uid : Nat) (vol : Option (Nat × Nat × Nat)) (img : GImg) (path : Option String)
        (sA sC sS : SliderCfg) (lbl info : String) (db : LogDB) (op : MorphOp) (k : Nat),
      (apply_morphological ⟨uid, vol, some img, path, sA, sC, sS, lbl, info⟩ db op k).2 =
        { db with image := db.image ++ [⟨path.getD "", "morphological",
            "operation=" ++ morphOpName op ++ " kernel_size=" ++ toString k, "success", uid⟩] }) ∧
    (∀ (uid : Nat) (vol : Option (Nat × Nat × Nat)) (path : Option String)
        (sA sC sS : SliderCfg) (lbl info : String) (db : LogDB) (op : MorphOp) (k : Nat),
      (apply_morphological ⟨uid, vol, none, path, sA, sC, sS, lbl, info⟩ db op k).2 = db) ∧
    (∀ (uid : Nat) (vol : Option (Nat × Nat × Nat)) (img : GImg) (path : Option String)
        (sA sC sS : SliderCfg) (lbl info : String) (db : LogDB),
      (count_cells ⟨uid, vol, some img, path, sA, sC, sS, lbl, info⟩ db).2 =
        { db with image := db.image ++ [⟨path.getD "", "cell_count",
            "method=connected_components", toString (count_cells_core img), uid⟩] }) ∧
    (∀ (uid : Nat) (vol : Option (Nat × Nat × Nat)) (path : Option String)
        (sA sC sS : SliderCfg) (lbl info : String) (db : LogDB),
      (count_cells ⟨uid, vol, none, path, sA, sC, sS, lbl, info⟩ db).2 = db) ∧
    (∀ (w : ImageWin) (db : LogDB) (sel : Option String), (save_analysis w db sel).2.1 = db) ∧
    (∀ (w : SignalWin) (db : LogDB) (fp : String) (m : List (String × MatArr)),
      (load_mat w db (some (fp, some m))).2 =
        { db with signal := db.signal ++ [⟨fp, "MAT", "load", "", "success", w.user_id⟩] }) ∧
    (∀ (w : SignalWin) (db : LogDB), (load_mat w db none).2 = db) ∧
    (∀ (w : SignalWin) (db : LogDB) (fp : String), (load_mat w db (some (fp, none))).2 = db) ∧
    (∀ (uid : Nat) (s : String) (arr : MatArr) (rest : List (String × MatArr))
        (df : Option (List (String × Col))) (x y : Option String) (db : LogDB),
      (plot_signal ⟨uid, some ((s, arr) :: rest), some s, df, x, y⟩ db).2 =
        { db with signal := db.signal ++ [⟨"", "MAT", "plot", "signal=" ++ s, "success", uid⟩] }) ∧
    (∀ (uid : Nat) (md : Option (List (String × MatArr)))
        (df : Option (List (String × Col))) (x y : Option String) (db : LogDB),
      (plot_signal ⟨uid, md, none, df, x, y⟩ db).2 = db) ∧
    (∀ (uid : Nat) (s : String) (df : Option (List (String × Col)))
        (x y : Option String) (db : LogDB),
      (plot_signal ⟨uid, some [], some s, df, x, y⟩ db).2 = db) ∧
    (∀ (uid : Nat) (s : String) (q : ℚ) (qs : List ℚ) (rest : List (String × MatArr))
        (df : Option (List (String × Col))) (x y : Option String) (db : LogDB),
      (analyze_signal ⟨uid, some ((s, MatArr.one (q :: qs)) :: rest), some s, df, x, y⟩ db).2 =
        { db with signal := db.signal ++ [⟨"", "MAT", "basic_analysis", "signal=" ++ s,
            mat_analysis_result (q :: qs), uid⟩] }) ∧
    (∀ (uid : Nat) (md : Option (List (String × MatArr)))
        (df : Option (List (String × Col))) (x y : Option String) (db : LogDB),
      (analyze_signal ⟨uid, md, none, df, x, y⟩ db).2 = db) ∧
    (∀ (uid : Nat) (s : String) (rest : List (String × MatArr))
        (df : Option (List (String × Col))) (x y : Option String) (db : LogDB),
      (analyze_signal ⟨uid, some ((s, MatArr.one []) :: rest), some s, df, x, y⟩ db).2 = db) ∧
    (∀ (w : SignalWin) (db : LogDB) (fp : String) (cols : List (String × Col)),
      (load_csv w db (some (fp, some cols))).2 =
        { db with signal := db.signal ++ [⟨fp, "CSV", "load",
            "columns=" ++ String.intercalate "," (cols.map Prod.fst), "success", w.user_id⟩] }) ∧
    (∀ (w : SignalWin) (db : LogDB), (load_csv w db none).2 = db) ∧
    (∀ (w : SignalWin) (db : LogDB) (fp : String), (load_csv w db (some (fp, none))).2 = db) ∧
    (∀ (uid : Nat) (md : Option (List (String × MatArr))) (sel : Option String)
        (s : String) (col : Col) (rest : List (String × Col)) (db : LogDB),
      (plot_csv ⟨uid, md, sel, some ((s, col) :: rest), some s, some s⟩ db).2 =
        { db with signal := db.signal ++ [⟨"", "CSV", "plot",
            "x_axis=" ++ s ++ " y_axis=" ++ s, "success", uid⟩] }) ∧
    (∀ (uid : Nat) (md : Option (List (String × MatArr))) (sel y : Option String)
        (df : Option (List (String × Col))) (db : LogDB),
      (plot_csv ⟨uid, md, sel, df, none, y⟩ db).2 = db) ∧
    (∀ (uid : Nat) (md : Option (List (String × MatArr))) (sel xsel : Option String)
        (s : String) (col : Col) (rest : List (String × Col)) (db : LogDB),
      (analyze_csv ⟨uid, md, sel, some ((s, col) :: rest), xsel, some s⟩ db).2 =
        { db with signal := db.signal ++ [⟨"", "CSV", "basic_analysis", "column=" ++ s,
            renderCsvAnalysis s (analyze_csv_core col), uid⟩] }) ∧
    (∀ (uid : Nat) (md : Option (List (String × MatArr))) (sel xsel : Option String)
        (df : Option (List (String × Col))) (db : LogDB),
      (analyze_csv ⟨uid, md, sel, df, xsel, none⟩ db).2 = db) := by
  refine ⟨?_, ?_, ?_, ?_, ?_, ?_, ?_, ?_, ?_, ?_, ?_, ?_, ?_, ?_, ?_, ?_, ?_, ?_, ?_, ?_,
    ?_, ?_, ?_, ?_, ?_, ?_, ?_⟩ <;> intros <;>
    first
      | rfl
      | (simp [load_dicom, convert_to_nifti, view_nifti, load_image, apply_morphological,
          count_cells, save_analysis, load_mat, plot_signal, analyze_signal, load_csv,
          plot_csv, analyze_csv, save_dicom_analysis, save_image_analysis,
          save_signal_analysis, List.lookup, matValues]) <;>
        (first
          | rfl
          | (split <;> first
              | rfl
              | (split <;> rfl)))

/-! ### Claim about CSV column analysis -/

/-- Membership in `dedupFirst` is membership in the original list. -/
theorem mem_dedupFirst (xs : List String) (v : String) : v ∈ dedupFirst xs ↔ v ∈ xs := by
  induction xs using dedupFirst.induct with
  | case1 => simp [dedupFirst]
  | case2 x rest ih =>
      rw [dedupFirst]
      simp only [List.mem_cons, ih, List.mem_filter, decide_eq_true_eq]
      constructor
      · rintro (h | ⟨h, _⟩)
        · exact Or.inl h
        · exact Or.inr h
      · rintro (h | h)
        · exact Or.inl h
        · by_cases hx : v = x
          · exact Or.inl hx
          · exact Or.inr ⟨h, hx⟩

/-- `dedupFirst` has no duplicates. -/
theorem nodup_dedupFirst (xs : List String) : (dedupFirst xs).Nodup := by
  induction xs using dedupFirst.induct with
  | case1 => simp [dedupFirst]
  | case2 x rest ih =>
      rw [dedupFirst]
      refine List.Nodup.cons ?_ ih
      intro hx
      have := (mem_dedupFirst _ _).mp hx
      simp at this

/-- `value_counts` is a permutation of the tagged first-appearance dedup. -/
theorem value_counts_perm (xs : List String) :
    (value_counts xs).Perm ((dedupFirst xs).map (fun v => (v, xs.count v))) :=
  List.mergeSort_perm _ _

/-- C7: analysing a numeric column reports its mean, maximum and minimum
formatted to two decimal places plus the value count, its sample standard
deviation to two decimal places whenever it is defined (two or more
values); analysing a non-numeric column reports the frequency of each
distinct value, sorted by descending frequency; and on the column
`[1, 2, 3, 4]` the report is mean 2.50, std 1.29, max 4.00, min 1.00,
count 4. -/
theorem analyze_csv_reports (xs : List ℚ) (ys : List String) (hne : xs ≠ []) :
    (analyze_csv_core (Col.nums xs) =
        CsvAnalysis.numericR (format2 (xs.sum / (xs.length : ℚ)))
          (if xs.length ≤ 1 then "nan" else fmtSqrt2 (sampleVar xs))
          (format2 (listMax xs)) (format2 (listMin xs)) xs.length) ∧
      (2 ≤ xs.length →
        analyze_csv_core (Col.nums xs) =
          CsvAnalysis.numericR (format2 (pandasMean xs)) (fmtSqrt2 (sampleVar xs))
            (format2 (listMax xs)) (format2 (listMin xs)) xs.length) ∧
      (analyze_csv_core (Col.strs ys) = CsvAnalysis.catR (value_counts ys) ∧
        List.Sorted (fun a b => a.2 ≥ b.2) (value_counts ys) ∧
        (∀ p ∈ value_counts ys, p.2 = ys.count p.1) ∧
        (∀ v, v ∈ ys ↔ v ∈ (value_counts ys).map Prod.fst) ∧
        ((value_counts ys).map Prod.fst).Nodup) ∧
      analyze_csv_core (Col.nums [1, 2, 3, 4]) =
        CsvAnalysis.numericR ("2.50") ("1.29") ("4.00") ("1.00") 4 := by
  have hmem : ∀ p, p ∈ value_counts ys ↔
      p ∈ ((dedupFirst ys).map (fun v => (v, ys.count v))) :=
    fun p => (value_counts_perm ys).mem_iff
  have hmapfst : ((value_counts ys).map Prod.fst).Perm (dedupFirst ys) := by
    have h2 := (value_counts_perm ys).map Prod.fst
    rw [List.map_map] at h2
    have h3 : (Prod.fst ∘ fun v : String => (v, ys.count v)) = id := by
      funext v
      rfl
    rw [h3, List.map_id] at h2
    exact h2
  refine ⟨?_, ?_, ⟨rfl, ?_, ?_, ?_, ?_⟩, ?_⟩
  · simp [analyze_csv_core, hne, pandasMean]
  · intro h2
    have : ¬ (xs.length ≤ 1) := by omega
    simp [analyze_csv_core, hne, this]
  · have hs := @List.sorted_mergeSort (String × Nat)
      (fun a b => decide (b.2 ≤ a.2))
      (fun a b c h1 h2 => by
        simp only [decide_eq_true_eq] at h1 h2 ⊢
        exact le_trans h2 h1)
      (fun a b => by
        simp only [Bool.or_eq_true, decide_eq_true_eq]
        exact le_total b.2 a.2)
      ((dedupFirst ys).map (fun v => (v, ys.count v)))
    unfold value_counts
    exact List.Pairwise.imp (fun h => by simpa using h) hs
  · intro p hp
    have := (hmem p).mp hp
    simp only [List.mem_map] at this
    obtain ⟨v, _, rfl⟩ := this
    rfl
  · intro v
    rw [hmapfst.mem_iff, mem_dedupFirst]
  · exact hmapfst.nodup_iff.mpr (nodup_dedupFirst ys)
  · have hmean : pandasMean [1, 2, 3, 4] = 5 / 2 := by
      norm_num [pandasMean]
    have hvar : sampleVar [1, 2, 3, 4] = 5 / 3 := by
      norm_num [sampleVar, pandasMean]
    have hmax : listMax [1, 2, 3, 4] = 4 := by
      norm_num [listMax, List.foldl, max_def]
    have hmin : listMin [1, 2, 3, 4] = 1 := by
      norm_num [listMin, List.foldl, min_def]
    have hrm : roundHalfEvenCenti (5 / 2 : ℚ) = 250 := by
      norm_num [roundHalfEvenCenti]
    have hrm4 : roundHalfEvenCenti (4 : ℚ) = 400 := by
      norm_num [roundHalfEvenCenti]
    have hrm1 : roundHalfEvenCenti (1 : ℚ) = 100 := by
      norm_num [roundHalfEvenCenti]
    have hsc : sqrtCentiRounded (5 / 3 : ℚ) = 129 := by
      norm_num [sqrtCentiRounded]
      have ht : (16666 : Int).toNat = 16666 := rfl
      rw [ht]
      norm_num
    have hf1 : format2 (pandasMean [1, 2, 3, 4]) = "2.50" := by
      rw [hmean]
      simp only [format2, hrm]
      decide
    have hf2 : fmtSqrt2 (sampleVar [1, 2, 3, 4]) = "1.29" := by
      rw [hvar]
      simp only [fmtSqrt2, hsc]
      decide
    have hf3 : format2 (listMax [1, 2, 3, 4]) = "4.00" := by
      rw [hmax]
      simp only [format2, hrm4]
      decide
    have hf4 : format2 (listMin [1, 2, 3, 4]) = "1.00" := by
      rw [hmin]
      simp only [format2, hrm1]
      decide
    have e : analyze_csv_core (Col.nums [1, 2, 3, 4]) =
        CsvAnalysis.numericR (format2 (pandasMean [1, 2, 3, 4]))
          (fmtSqrt2 (sampleVar [1, 2, 3, 4]))
          (format2 (listMax [1, 2, 3, 4])) (format2 (listMin [1, 2, 3, 4])) 4 := by
      simp [analyze_csv_core]
    rw [e, hf1, hf2, hf3, hf4]

/-- C7 witness: the nonemptiness hypothesis discharged at the column
`[1, 2, 3, 4]` together with a categorical column. -/
theorem analyze_csv_reports_witness :
    (([1, 2, 3, 4] : List ℚ) ≠ []) ∧
      ((analyze_csv_core (Col.nums [1, 2, 3, 4]) =
          CsvAnalysis.numericR (format2 (([1, 2, 3, 4] : List ℚ).sum / (([1, 2, 3, 4] : List ℚ).length : ℚ)))
            (if ([1, 2, 3, 4] : List ℚ).length ≤ 1 then "nan" else fmtSqrt2 (sampleVar [1, 2, 3, 4]))
            (format2 (listMax [1, 2, 3, 4])) (format2 (listMin [1, 2, 3, 4]))
            ([1, 2, 3, 4] : List ℚ).length) ∧
        (2 ≤ ([1, 2, 3, 4] : List ℚ).length →
          analyze_csv_core (Col.nums [1, 2, 3, 4]) =
            CsvAnalysis.numericR (format2 (pandasMean [1, 2, 3, 4])) (fmtSqrt2 (sampleVar [1, 2, 3, 4]))
              (format2 (listMax [1, 2, 3, 4])) (format2 (listMin [1, 2, 3, 4]))
              ([1, 2, 3, 4] : List ℚ).length) ∧
        (analyze_csv_core (Col.strs ["b", "a", "b"]) = CsvAnalysis.catR (value_counts ["b", "a", "b"]) ∧
          List.Sorted (fun a b => a.2 ≥ b.2) (value_counts ["b", "a", "b"]) ∧
          (∀ p ∈ value_counts ["b", "a", "b"], p.2 = (["b", "a", "b"] : List String).count p.1) ∧
          (∀ v, v ∈ (["b", "a", "b"] : List String) ↔ v ∈ (value_counts ["b", "a", "b"]).map Prod.fst) ∧
          ((value_counts ["b", "a", "b"]).map Prod.fst).Nodup) ∧
        analyze_csv_core (Col.nums [1, 2, 3, 4]) =
          CsvAnalysis.numericR ("2.50") ("1.29") ("4.00") ("1.00") 4) :=
  ⟨by decide, analyze_csv_reports [1, 2, 3, 4] ["b", "a", "b"] (by decide)⟩

/-! ### The Otsu threshold on binary images -/

/-- A left fold by a function that fixes the accumulator is the identity. -/
theorem foldl_fixed_of_id {α β : Type _} (f : β → α → β) (b : β) (l : List α)
    (h : ∀ x ∈ l, f b x = b) : l.foldl f b = b := by
  induction l with
  | nil => rfl
  | cons x xs ih =>
      rw [List.foldl_cons, h x (List.mem_cons_self x xs)]
      exact ih (fun y hy => h y (List.mem_cons_of_mem x hy))

/-- On a two-valued (0/255) pixel population, every threshold in `[0, 254]`
induces the same class split, so the first-argmax scan settles on `t = 0`:
Otsu's threshold of a binary image is 0. -/
theorem otsuThreshold_binary (l : List Nat) (hbin : ∀ v ∈ l, v = 0 ∨ v = 255) :
    otsuThreshold l = 0 := by
  have hle255 : ∀ v ∈ l, v ≤ 255 := by
    intro v hv
    rcases hbin v hv with h | h <;> omega
  have hfilter255 : l.filter (fun v => decide (v ≤ 255)) = l := by
    rw [List.filter_eq_self]
    intro v hv
    simpa using hle255 v hv
  have hden255 : otsuDen l 255 = 0 := by
    unfold otsuDen countLe
    rw [hfilter255, Nat.sub_self, Nat.mul_zero]
  have hcong : ∀ t, 1 ≤ t → t ≤ 254 →
      l.filter (fun v => decide (v ≤ t)) = l.filter (fun v => decide (v ≤ 0)) := by
    intro t h1 h2
    apply List.filter_congr
    intro v hv
    simp only [decide_eq_decide]
    rcases hbin v hv with rfl | rfl <;> omega
  have hc : ∀ t, 1 ≤ t → t ≤ 254 → countLe l t = countLe l 0 ∧ sumLe l t = sumLe l 0 := by
    intro t h1 h2
    unfold countLe sumLe
    rw [hcong t h1 h2]
    exact ⟨rfl, rfl⟩
  have hsum0 : sumLe l 0 = 0 := by
    unfold sumLe
    apply List.sum_eq_zero
    intro x hx
    have hx' := List.mem_filter.mp hx
    simpa using hx'.2
  unfold otsuThreshold
  by_cases hc0 : countLe l 0 = 0
  · rw [foldl_fixed_of_id]
    intro t ht
    have htlt : t < 256 := List.mem_range.mp ht
    unfold otsuStep
    rw [if_pos]
    rcases Nat.lt_or_ge t 255 with h | h
    · have hct : countLe l t = 0 := by
        rcases Nat.eq_zero_or_pos t with rfl | hpos
        · exact hc0
        · exact ((hc t hpos (by omega)).1).trans hc0
      unfold otsuDen
      rw [hct, Nat.zero_mul]
    · have ht255 : t = 255 := by omega
      rw [ht255]
      exact hden255
  · by_cases hcl : countLe l 0 = l.length
    · have hall : ∀ v ∈ l, v = 0 := by
        have hlen : (l.filter (fun v => decide (v ≤ 0))).length = l.length := hcl
        have hmem := List.filter_length_eq_length.mp hlen
        intro v hv
        simpa using hmem v hv
      rw [foldl_fixed_of_id]
      intro t ht
      have hfil : l.filter (fun v => decide (v ≤ t)) = l := by
        rw [List.filter_eq_self]
        intro v hv
        simp [hall v hv]
      unfold otsuStep
      rw [if_pos]
      unfold otsuDen countLe
      rw [hfil, Nat.sub_self, Nat.mul_zero]
    · have hn0pos : 0 < countLe l 0 := Nat.pos_of_ne_zero hc0
      have hn0le : countLe l 0 ≤ l.length := List.length_filter_le _ _
      have hn0lt : countLe l 0 < l.length := lt_of_le_of_ne hn0le hcl
      have hsum_pos : 0 < l.sum := by
        rcases Nat.eq_zero_or_pos l.sum with hz | hp
        · exfalso
          have hall : ∀ v ∈ l, v = 0 := by
            intro v hv
            exact List.sum_eq_zero_iff.mp hz v hv
          have : l.filter (fun v => decide (v ≤ 0)) = l := by
            rw [List.filter_eq_self]
            intro v hv
            simp [hall v hv]
          exact hcl (by unfold countLe; rw [this])
        · exact hp
      have hnum0 : otsuNum l 0 = (l.sum * countLe l 0) ^ 2 := by
        unfold otsuNum
        rw [hsum0]
        rw [Nat.cast_zero, zero_mul, Nat.sub_zero, zero_sub, Int.natAbs_neg, Int.natAbs_mul,
          Int.natAbs_ofNat, Int.natAbs_ofNat]
      have hnum0pos : 0 < otsuNum l 0 := by
        rw [hnum0]
        exact pow_pos (Nat.mul_pos hsum_pos hn0pos) 2
      have hden0pos : 0 < otsuDen l 0 := Nat.mul_pos hn0pos (by omega)
      have hacc1 : otsuStep l (0, 0, 1) 0 = (0, otsuNum l 0, otsuDen l 0) := by
        unfold otsuStep
        rw [if_neg (by omega : ¬ otsuDen l 0 = 0), if_pos]
        simpa using hnum0pos
      rw [show (256 : Nat) = 255 + 1 from rfl, List.range_succ_eq_map, List.foldl_cons, hacc1,
        foldl_fixed_of_id]
      intro x hx
      simp only [List.mem_map, List.mem_range] at hx
      obtain ⟨t, ht, rfl⟩ := hx
      simp only [Nat.succ_eq_add_one]
      unfold otsuStep
      rcases Nat.lt_or_ge (t + 1) 255 with h | h
      · have hct := hc (t + 1) (by omega) (by omega)
        have hdent : otsuDen l (t + 1) = otsuDen l 0 := by
          unfold otsuDen
          rw [hct.1]
        have hnumt : otsuNum l (t + 1) = otsuNum l 0 := by
          unfold otsuNum
          rw [hct.1, hct.2]
        rw [if_neg, if_neg]
        · rw [hdent, hnumt]
          simp
        · rw [hdent]
          omega
      · have ht255 : t + 1 = 255 := by omega
        rw [ht255, if_pos hden255]

/-- Otsu's automatic threshold chooses 0 on a binary image. -/
theorem otsu_binary (B : GImg) (hbin : ∀ v ∈ pixList B, v = 0 ∨ v = 255) :
    otsu B = 0 :=
  otsuThreshold_binary (pixList B) hbin

/-! ### Foreground characterisations of the 3×3 morphology -/

/-- A fold by `min` from 255 is nonzero iff every entry is nonzero. -/
theorem foldr_min_ne_zero (l : List Nat) : l.foldr min 255 ≠ 0 ↔ ∀ x ∈ l, x ≠ 0 := by
  induction l with
  | nil => simp
  | cons x xs ih =>
      simp only [List.foldr_cons, Ne, Nat.min_eq_zero_iff, List.mem_cons]
      rw [not_or]
      constructor
      · rintro ⟨h1, h2⟩ y (rfl | hy)
        · exact h1
        · exact (ih.mp h2) y hy
      · intro hall
        exact ⟨hall x (Or.inl rfl), ih.mpr (fun y hy => hall y (Or.inr hy))⟩

/-- A fold by `max` from 0 is nonzero iff some entry is nonzero. -/
theorem foldr_max_ne_zero (l : List Nat) : l.foldr max 0 ≠ 0 ↔ ∃ x ∈ l, x ≠ 0 := by
  induction l with
  | nil => simp
  | cons x xs ih =>
      simp only [List.foldr_cons, Ne, Nat.max_eq_zero_iff, List.mem_cons]
      rw [not_and_or]
      constructor
      · rintro (h1 | h2)
        · exact ⟨x, Or.inl rfl, h1⟩
        · obtain ⟨y, hy, hyne⟩ := ih.mp h2
          exact ⟨y, Or.inr hy, hyne⟩
      · rintro ⟨y, (rfl | hy), hyne⟩
        · exact Or.inl hyne
        · exact Or.inr (ih.mpr ⟨y, hy, hyne⟩)

/-- The 3×3 structuring element covers exactly the Chebyshev-1 offsets. -/
theorem offs3_eq :
    offs 3 = [(-1, -1), (-1, 0), (-1, 1), (0, -1), (0, 0), (0, 1), (1, -1), (1, 0), (1, 1)] := by
  decide

/-- Every 3×3 offset has both coordinates in `[-1, 1]`. -/
theorem offs3_bounds : ∀ o ∈ offs 3, -1 ≤ o.1 ∧ o.1 ≤ 1 ∧ -1 ≤ o.2 ∧ o.2 ≤ 1 := by
  decide

/-- Conversely, every pair with coordinates in `[-1, 1]` is a 3×3 offset. -/
theorem mem_offs3 (a b : Int) (ha1 : -1 ≤ a) (ha2 : a ≤ 1) (hb1 : -1 ≤ b) (hb2 : b ≤ 1) :
    (a, b) ∈ offs 3 := by
  rw [offs3_eq]
  interval_cases a <;> interval_cases b <;> simp

/-- Membership in the foreground set, unfolded. -/
theorem mem_fgSet (B : GImg) (p : Int × Int) :
    p ∈ fgSet B ↔
      0 ≤ p.1 ∧ p.1 < (B.h : Int) ∧ 0 ≤ p.2 ∧ p.2 < (B.w : Int) ∧ B.pix p.1 p.2 ≠ 0 := by
  unfold fgSet gridSet
  simp only [Finset.mem_filter, Finset.mem_product, Finset.mem_Ico]
  tauto

/-- The eroded pixel is foreground iff the whole 3×3 window is (with
out-of-range positions counting as foreground for erosion). -/
theorem erode3_pix_ne_zero (B : GImg) (r c : Int) :
    (erodeK 3 B).pix r c ≠ 0 ↔ ∀ o ∈ offs 3, valOr B 255 (r + o.1) (c + o.2) ≠ 0 := by
  show ((offs 3).map fun o => valOr B 255 (r + o.1) (c + o.2)).foldr min 255 ≠ 0 ↔ _
  rw [foldr_min_ne_zero]
  constructor
  · intro h o ho
    exact h _ (List.mem_map_of_mem _ ho)
  · intro h x hx
    obtain ⟨o, ho, rfl⟩ := List.mem_map.mp hx
    exact h o ho

/-- The dilated pixel is foreground iff some 3×3 neighbour is (out-of-range
positions counting as background for dilation). -/
theorem dilate3_pix_ne_zero (B : GImg) (r c : Int) :
    (dilateK 3 B).pix r c ≠ 0 ↔ ∃ o ∈ offs 3, valOr B 0 (r + o.1) (c + o.2) ≠ 0 := by
  show ((offs 3).map fun o => valOr B 0 (r + o.1) (c + o.2)).foldr max 0 ≠ 0 ↔ _
  rw [foldr_max_ne_zero]
  constructor
  · intro ⟨x, hx, hne⟩
    obtain ⟨o, ho, rfl⟩ := List.mem_map.mp hx
    exact ⟨o, ho, hne⟩
  · intro ⟨o, ho, hne⟩
    exact ⟨_, List.mem_map_of_mem _ ho, hne⟩

/-! ### Blob geometry -/

/-- Membership in a blob's cells, unfolded. -/
theorem mem_cells (b : Blob) (p : Int × Int) :
    p ∈ b.cells ↔ b.r ≤ p.1 ∧ p.1 < b.r + b.s ∧ b.c ≤ p.2 ∧ p.2 < b.c + b.s := by
  unfold Blob.cells
  simp only [Finset.mem_product, Finset.mem_Ico]
  tauto

/-- Membership in a blob union, unfolded. -/
theorem mem_blobCells (bs : List Blob) (p : Int × Int) :
    p ∈ blobCells bs ↔ ∃ b ∈ bs, p ∈ b.cells := by
  induction bs with
  | nil => simp [blobCells]
  | cons b bs ih =>
      show p ∈ b.cells ∪ blobCells bs ↔ _
      rw [Finset.mem_union, ih]
      simp

/-- Cells of two well-separated blobs are at Chebyshev distance at least 3. -/
theorem far_cells {b b' : Blob} (h : farBlobs b b') {p q : Int × Int}
    (hp : p ∈ b.cells) (hq : q ∈ b'.cells) :
    3 ≤ p.1 - q.1 ∨ 3 ≤ q.1 - p.1 ∨ 3 ≤ p.2 - q.2 ∨ 3 ≤ q.2 - p.2 := by
  rw [mem_cells] at hp hq
  unfold farBlobs at h
  omega

/-- `farBlobs` is symmetric. -/
theorem farBlobs_symm : Symmetric farBlobs := by
  intro b b' h
  unfold farBlobs at *
  tauto

/-- Component form of `mem_cells`. -/
theorem mem_cells' (b : Blob) (x y : Int) :
    (x, y) ∈ b.cells ↔ b.r ≤ x ∧ x < b.r + b.s ∧ b.c ≤ y ∧ y < b.c + b.s :=
  mem_cells b (x, y)

/-- Component form of `mem_fgSet`. -/
theorem mem_fgSet' (B : GImg) (x y : Int) :
    (x, y) ∈ fgSet B ↔
      0 ≤ x ∧ x < (B.h : Int) ∧ 0 ≤ y ∧ y < (B.w : Int) ∧ B.pix x y ≠ 0 :=
  mem_fgSet B (x, y)

/-- Component form of `offs3_bounds`. -/
theorem offs3_bounds' (o1 o2 : Int) (h : (o1, o2) ∈ offs 3) :
    -1 ≤ o1 ∧ o1 ≤ 1 ∧ -1 ≤ o2 ∧ o2 ≤ 1 :=
  offs3_bounds (o1, o2) h

/-- Component form of `far_cells`. -/
theorem far_cells' {b b' : Blob} (h : farBlobs b b') {x1 y1 x2 y2 : Int}
    (hp : (x1, y1) ∈ b.cells) (hq : (x2, y2) ∈ b'.cells) :
    3 ≤ x1 - x2 ∨ 3 ≤ x2 - x1 ∨ 3 ≤ y1 - y2 ∨ 3 ≤ y2 - y1 :=
  far_cells h hp hq

/-- Eroding a union of pairwise well-separated, margin-respecting square
blobs with the 3×3 kernel shrinks every blob by one pixel on each side. -/
theorem fgSet_erode3_blobs (B : GImg) (bs : List Blob)
    (hok : ∀ b ∈ bs, 1 ≤ b.r ∧ 1 ≤ b.c ∧ b.r + b.s + 1 ≤ (B.h : Int) ∧ b.c + b.s + 1 ≤ (B.w : Int))
    (hfar : bs.Pairwise farBlobs)
    (hfg : fgSet B = blobCells bs) :
    fgSet (erodeK 3 B) = blobCells (bs.map shrinkB) := by
  have hfar' : ∀ b ∈ bs, ∀ b' ∈ bs, b ≠ b' → farBlobs b b' :=
    fun b hb b' hb' hne => hfar.forall farBlobs_symm hb hb' hne
  ext ⟨p1, p2⟩
  rw [mem_fgSet', mem_blobCells]
  rw [show (erodeK 3 B).h = B.h from rfl, show (erodeK 3 B).w = B.w from rfl,
    erode3_pix_ne_zero]
  constructor
  · rintro ⟨hr0, hrh, hc0, hcw, hwin⟩
    have h00 := hwin (0, 0) (by rw [offs3_eq]; simp)
    have hp : (p1, p2) ∈ blobCells bs := by
      rw [← hfg, mem_fgSet']
      refine ⟨hr0, hrh, hc0, hcw, ?_⟩
      unfold valOr at h00
      dsimp only at h00
      rw [if_pos ⟨by omega, by omega, by omega, by omega⟩] at h00
      simpa using h00
    obtain ⟨b, hb, hpb⟩ := (mem_blobCells bs (p1, p2)).mp hp
    obtain ⟨hbr, hbc, hbh, hbw⟩ := hok b hb
    have hpc := (mem_cells' b p1 p2).mp hpb
    have hnbr : ∀ o1 o2 : Int, (o1, o2) ∈ offs 3 → (p1 + o1, p2 + o2) ∈ b.cells := by
      intro o1 o2 ho
      obtain ⟨hob1, hob2, hob3, hob4⟩ := offs3_bounds' o1 o2 ho
      have hv := hwin (o1, o2) ho
      unfold valOr at hv
      dsimp only at hv
      rw [if_pos ⟨by omega, by omega, by omega, by omega⟩] at hv
      have hmem : (p1 + o1, p2 + o2) ∈ blobCells bs := by
        rw [← hfg, mem_fgSet']
        exact ⟨by omega, by omega, by omega, by omega, hv⟩
      obtain ⟨b', hb', hqb'⟩ := (mem_blobCells bs _).mp hmem
      by_cases hbb : b = b'
      · rwa [hbb]
      · exfalso
        have hd := far_cells' (hfar' b hb b' hb' hbb) hpb hqb'
        omega
    have hN := (mem_cells' b (p1 + -1) (p2 + 0)).mp (hnbr (-1) 0 (by rw [offs3_eq]; simp))
    have hS := (mem_cells' b (p1 + 1) (p2 + 0)).mp (hnbr 1 0 (by rw [offs3_eq]; simp))
    have hW := (mem_cells' b (p1 + 0) (p2 + -1)).mp (hnbr 0 (-1) (by rw [offs3_eq]; simp))
    have hE := (mem_cells' b (p1 + 0) (p2 + 1)).mp (hnbr 0 1 (by rw [offs3_eq]; simp))
    refine ⟨shrinkB b, List.mem_map_of_mem _ hb, ?_⟩
    rw [mem_cells']
    simp only [shrinkB]
    omega
  · rintro ⟨b', hb', hpb'⟩
    obtain ⟨b, hb, rfl⟩ := List.mem_map.mp hb'
    obtain ⟨hbr, hbc, hbh, hbw⟩ := hok b hb
    have hpc := (mem_cells' (shrinkB b) p1 p2).mp hpb'
    simp only [shrinkB] at hpc
    refine ⟨by omega, by omega, by omega, by omega, ?_⟩
    rintro ⟨o1, o2⟩ ho
    obtain ⟨hob1, hob2, hob3, hob4⟩ := offs3_bounds' o1 o2 ho
    have hnb : (p1 + o1, p2 + o2) ∈ b.cells := by
      rw [mem_cells']
      omega
    have hfgq : (p1 + o1, p2 + o2) ∈ fgSet B := by
      rw [hfg, mem_blobCells]
      exact ⟨b, hb, hnb⟩
    rw [mem_fgSet'] at hfgq
    unfold valOr
    dsimp only
    rw [if_pos ⟨hfgq.1, hfgq.2.1, hfgq.2.2.1, hfgq.2.2.2.1⟩]
    exact hfgq.2.2.2.2

/-- Dilating a union of margin-respecting nonempty square blobs with the 3×3
kernel grows every blob by one pixel on each side. -/
theorem fgSet_dilate3_blobs (B : GImg) (bs : List Blob)
    (hok : ∀ b ∈ bs, 1 ≤ b.s ∧ 1 ≤ b.r ∧ 1 ≤ b.c ∧
      b.r + b.s + 1 ≤ (B.h : Int) ∧ b.c + b.s + 1 ≤ (B.w : Int))
    (hfg : fgSet B = blobCells bs) :
    fgSet (dilateK 3 B) = blobCells (bs.map growB) := by
  ext ⟨p1, p2⟩
  rw [mem_fgSet', mem_blobCells]
  rw [show (dilateK 3 B).h = B.h from rfl, show (dilateK 3 B).w = B.w from rfl,
    dilate3_pix_ne_zero]
  constructor
  · rintro ⟨hr0, hrh, hc0, hcw, ⟨o1, o2⟩, ho, hv⟩
    obtain ⟨hob1, hob2, hob3, hob4⟩ := offs3_bounds' o1 o2 ho
    unfold valOr at hv
    dsimp only at hv
    by_cases hin : 0 ≤ p1 + o1 ∧ p1 + o1 < (B.h : Int) ∧ 0 ≤ p2 + o2 ∧ p2 + o2 < (B.w : Int)
    · rw [if_pos hin] at hv
      have hmem : (p1 + o1, p2 + o2) ∈ blobCells bs := by
        rw [← hfg, mem_fgSet']
        exact ⟨hin.1, hin.2.1, hin.2.2.1, hin.2.2.2, hv⟩
      obtain ⟨b, hb, hqb⟩ := (mem_blobCells bs _).mp hmem
      have hqc := (mem_cells' b _ _).mp hqb
      refine ⟨growB b, List.mem_map_of_mem _ hb, ?_⟩
      rw [mem_cells']
      simp only [growB]
      push_cast
      omega
    · rw [if_neg hin] at hv
      exact absurd rfl hv
  · rintro ⟨b', hb', hpb'⟩
    obtain ⟨b, hb, rfl⟩ := List.mem_map.mp hb'
    obtain ⟨hs1, hr1, hc1, hrh, hcw⟩ := hok b hb
    have hpc := (mem_cells' (growB b) p1 p2).mp hpb'
    simp only [growB] at hpc
    push_cast at hpc
    refine ⟨by omega, by omega, by omega, by omega, ?_⟩
    refine ⟨(if p1 < b.r then 1 else if b.r + (b.s : Int) ≤ p1 then -1 else 0,
             if p2 < b.c then 1 else if b.c + (b.s : Int) ≤ p2 then -1 else 0), ?_, ?_⟩
    · apply mem_offs3 <;> (split_ifs <;> omega)
    · dsimp only
      have hq : (p1 + (if p1 < b.r then (1 : Int) else if b.r + (b.s : Int) ≤ p1 then -1 else 0),
                 p2 + (if p2 < b.c then (1 : Int) else if b.c + (b.s : Int) ≤ p2 then -1 else 0)) ∈
          b.cells := by
        rw [mem_cells']
        constructor
        · split_ifs <;> omega
        constructor
        · split_ifs <;> omega
        constructor
        · split_ifs <;> omega
        · split_ifs <;> omega
      have hfgq : (p1 + (if p1 < b.r then (1 : Int) else if b.r + (b.s : Int) ≤ p1 then -1 else 0),
                   p2 + (if p2 < b.c then (1 : Int) else if b.c + (b.s : Int) ≤ p2 then -1 else 0)) ∈
          fgSet B := by
        rw [hfg, mem_blobCells]
        exact ⟨b, hb, hq⟩
      rw [mem_fgSet'] at hfgq
      unfold valOr
      rw [if_pos ⟨hfgq.1, hfgq.2.1, hfgq.2.2.1, hfgq.2.2.2.1⟩]
      exact hfgq.2.2.2.2

/-! ### Connected components of well-separated squares -/

/-- Component form of `posLt`. -/
theorem posLt' (x1 y1 x2 y2 : Int) :
    posLt (x1, y1) (x2, y2) ↔ x1 < x2 ∨ (x1 = x2 ∧ y1 < y2) :=
  Iff.rfl

/-- Component form of `near8`. -/
theorem near8' (x1 y1 x2 y2 : Int) :
    near8 (x1, y1) (x2, y2) ↔ (x1 - x2).natAbs ≤ 1 ∧ (y1 - y2).natAbs ≤ 1 :=
  Iff.rfl

/-- Each closure step only grows the reached set. -/
theorem subset_ccStep (S R : Finset (Int × Int)) : R ⊆ ccStep S R :=
  Finset.subset_union_left

/-- Iterating the closure step is monotone in the iteration count. -/
theorem iterate_ccStep_mono (S : Finset (Int × Int)) (R : Finset (Int × Int))
    {k m : Nat} (h : k ≤ m) : (ccStep S)^[k] R ⊆ (ccStep S)^[m] R := by
  induction h with
  | refl => exact subset_rfl
  | step h ih =>
      refine ih.trans ?_
      rw [Function.iterate_succ_apply']
      exact subset_ccStep S _

/-- The reached set stays inside any set that is closed under taking
adjacent members of `S`. -/
theorem iterate_ccStep_subset_of_closed (S C : Finset (Int × Int))
    (hclosed : ∀ q ∈ S, (∃ p ∈ C, near8 p q) → q ∈ C)
    (R : Finset (Int × Int)) (hR : R ⊆ C) (n : Nat) :
    (ccStep S)^[n] R ⊆ C := by
  induction n with
  | zero => exact hR
  | succ n ih =>
      rw [Function.iterate_succ_apply']
      intro q hq
      rcases Finset.mem_union.mp hq with h | h
      · exact ih h
      · obtain ⟨hqS, p, hp, hnear⟩ := Finset.mem_filter.mp h
        exact hclosed q hqS ⟨p, ih hp, hnear⟩

/-- Inside one square blob, every cell at per-coordinate distance at most `k`
from the start is reached within `k` closure steps. -/
theorem mem_iterate_ccStep_of_cells {S : Finset (Int × Int)} {b : Blob}
    (hcells : b.cells ⊆ S) {p1 p2 : Int} (hp : (p1, p2) ∈ b.cells) :
    ∀ (k : Nat) (q1 q2 : Int), (q1, q2) ∈ b.cells →
      (p1 - q1).natAbs ≤ k → (p2 - q2).natAbs ≤ k →
      (q1, q2) ∈ (ccStep S)^[k] {(p1, p2)} := by
  intro k
  induction k with
  | zero =>
      intro q1 q2 hq h1 h2
      have he : q1 = p1 ∧ q2 = p2 := by omega
      simp [he.1, he.2]
  | succ k ih =>
      intro q1 q2 hq h1 h2
      have hpc := (mem_cells' b p1 p2).mp hp
      have hqc := (mem_cells' b q1 q2).mp hq
      have hq'cells : (q1 + (if q1 < p1 then 1 else if p1 < q1 then -1 else 0),
          q2 + (if q2 < p2 then 1 else if p2 < q2 then -1 else 0)) ∈ b.cells := by
        rw [mem_cells']
        refine ⟨?_, ?_, ?_, ?_⟩ <;> (split_ifs <;> omega)
      have hd1 : (p1 - (q1 + (if q1 < p1 then 1 else if p1 < q1 then -1 else 0))).natAbs ≤ k := by
        split_ifs <;> omega
      have hd2 : (p2 - (q2 + (if q2 < p2 then 1 else if p2 < q2 then -1 else 0))).natAbs ≤ k := by
        split_ifs <;> omega
      have hq'mem := ih _ _ hq'cells hd1 hd2
      rw [Function.iterate_succ_apply']
      apply Finset.mem_union_right
      rw [Finset.mem_filter]
      refine ⟨hcells hq, ⟨_, hq'mem, ?_⟩⟩
      rw [near8']
      constructor <;> (split_ifs <;> omega)

/-- For a cell of a blob in a pairwise well-separated family, the reachable
set is exactly that blob. -/
theorem reach_eq_cells {bs : List Blob} {b : Blob} (hb : b ∈ bs)
    (hs : ∀ b' ∈ bs, 1 ≤ b'.s) (hfar : bs.Pairwise farBlobs)
    {p : Int × Int} (hp : p ∈ b.cells) :
    reach (blobCells bs) p = b.cells := by
  have hfar' : ∀ b1 ∈ bs, ∀ b2 ∈ bs, b1 ≠ b2 → farBlobs b1 b2 :=
    fun b1 hb1 b2 hb2 hne => hfar.forall farBlobs_symm hb1 hb2 hne
  have hcells_sub : b.cells ⊆ blobCells bs :=
    fun q hq => (mem_blobCells bs q).mpr ⟨b, hb, hq⟩
  apply Finset.Subset.antisymm
  · unfold reach
    apply iterate_ccStep_subset_of_closed
    · rintro q hqS ⟨r, hrC, hnear⟩
      obtain ⟨b', hb', hqb'⟩ := (mem_blobCells bs q).mp hqS
      by_cases hbb : b = b'
      · rwa [hbb]
      · exfalso
        obtain ⟨r1, r2⟩ := r
        obtain ⟨q1, q2⟩ := q
        have hd := far_cells' (hfar' b hb b' hb' hbb) hrC hqb'
        rw [near8'] at hnear
        omega
    · intro x hx
      rw [Finset.mem_singleton.mp hx]
      exact hp
  · intro q hq
    obtain ⟨p1, p2⟩ := p
    obtain ⟨q1, q2⟩ := q
    unfold reach
    have hcard : b.cells.card ≤ (blobCells bs).card := Finset.card_le_card hcells_sub
    have hscard : b.cells.card = b.s * b.s := by
      unfold Blob.cells
      rw [Finset.card_product]
      rw [Int.card_Ico, Int.card_Ico]
      simp
    have hss : b.s ≤ b.s * b.s := Nat.le_mul_of_pos_left _ (hs b hb)
    have hpc := (mem_cells' b p1 p2).mp hp
    have hqc := (mem_cells' b q1 q2).mp hq
    exact mem_iterate_ccStep_of_cells hcells_sub hp _ q1 q2 hq (by omega) (by omega)

/-- A cell of a blob is the canonical component representative iff it is the
blob's top-left corner. -/
theorem isRep_iff_corner {bs : List Blob} {b : Blob} (hb : b ∈ bs)
    (hs : ∀ b' ∈ bs, 1 ≤ b'.s) (hfar : bs.Pairwise farBlobs)
    {p1 p2 : Int} (hp : (p1, p2) ∈ b.cells) :
    isRep (blobCells bs) (p1, p2) ↔ p1 = b.r ∧ p2 = b.c := by
  unfold isRep
  rw [reach_eq_cells hb hs hfar hp]
  constructor
  · intro h
    have hpc := (mem_cells' b p1 p2).mp hp
    have hcorner : (b.r, b.c) ∈ b.cells := by
      rw [mem_cells']
      have := hs b hb
      omega
    have hno := h (b.r, b.c) hcorner
    rw [posLt'] at hno
    omega
  · rintro ⟨rfl, rfl⟩ q hq hlt
    obtain ⟨q1, q2⟩ := q
    have hqc := (mem_cells' b q1 q2).mp hq
    rw [posLt'] at hlt
    omega

/-- The number of 8-connected components of a union of nonempty, pairwise
well-separated square blobs is the number of blobs. -/
theorem ccCount_blobs (bs : List Blob) (hs : ∀ b ∈ bs, 1 ≤ b.s)
    (hfar : bs.Pairwise farBlobs) :
    ccCount (blobCells bs) = bs.length := by
  unfold ccCount
  have hfilter : (blobCells bs).filter (fun p => isRep (blobCells bs) p) =
      (bs.map (fun b => (b.r, b.c))).toFinset := by
    ext ⟨p1, p2⟩
    rw [Finset.mem_filter, List.mem_toFinset, List.mem_map]
    constructor
    · rintro ⟨hpS, hrep⟩
      obtain ⟨b, hb, hpb⟩ := (mem_blobCells bs _).mp hpS
      obtain ⟨h1, h2⟩ := (isRep_iff_corner hb hs hfar hpb).mp hrep
      exact ⟨b, hb, by rw [h1, h2]⟩
    · rintro ⟨b, hb, heq⟩
      have h1 : b.r = p1 := congrArg Prod.fst heq
      have h2 : b.c = p2 := congrArg Prod.snd heq
      subst h1
      subst h2
      have hcorner : (b.r, b.c) ∈ b.cells := by
        rw [mem_cells']
        have := hs b hb
        omega
      refine ⟨(mem_blobCells bs _).mpr ⟨b, hb, hcorner⟩, ?_⟩
      rw [isRep_iff_corner hb hs hfar hcorner]
      exact ⟨rfl, rfl⟩
  rw [hfilter]
  rw [List.toFinset_card_of_nodup, List.length_map]
  exact List.Pairwise.map _
    (fun a b hab => by
      intro heq
      have h1 : a.r = b.r := congrArg Prod.fst heq
      have h2 : a.c = b.c := congrArg Prod.snd heq
      unfold farBlobs at hab
      omega)
    hfar

/-! ### The cell-count pipeline on synthetic blob images -/

/-- A synthetic blob image is two-valued. -/
theorem syntheticImg_binary (h w : Nat) (bs : List Blob) :
    ∀ v ∈ pixList (syntheticImg h w bs), v = 0 ∨ v = 255 := by
  intro v hv
  unfold pixList at hv
  simp only [List.mem_bind, List.mem_map, List.mem_range] at hv
  obtain ⟨r, hr, c, hc, rfl⟩ := hv
  show (if ((r : Int), (c : Int)) ∈ blobCells bs then 0 else 255) = 0 ∨
    (if ((r : Int), (c : Int)) ∈ blobCells bs then 0 else 255) = 255
  split
  · exact Or.inl rfl
  · exact Or.inr rfl

/-- Inverse binarisation at threshold 0 of a synthetic image selects exactly
the blob cells as foreground. -/
theorem fgSet_syntheticImg_inv (h w : Nat) (bs : List Blob)
    (hok : ∀ b ∈ bs, blobOK h w b) :
    fgSet (thresholdBinaryInv 0 (syntheticImg h w bs)) = blobCells bs := by
  ext ⟨p1, p2⟩
  rw [mem_fgSet']
  rw [show (thresholdBinaryInv 0 (syntheticImg h w bs)).h = h from rfl,
    show (thresholdBinaryInv 0 (syntheticImg h w bs)).w = w from rfl]
  constructor
  · rintro ⟨h1, h2, h3, h4, h5⟩
    by_cases hmem : (p1, p2) ∈ blobCells bs
    · exact hmem
    · exfalso
      apply h5
      show (if 0 < (syntheticImg h w bs).pix p1 p2 then 0 else 255) = 0
      rw [if_pos]
      show 0 < (if (p1, p2) ∈ blobCells bs then 0 else 255)
      rw [if_neg hmem]
      omega
  · intro hmem
    obtain ⟨b, hb, hpb⟩ := (mem_blobCells bs _).mp hmem
    have hokb := hok b hb
    unfold blobOK at hokb
    obtain ⟨hbr, hbc, hbh, hbw⟩ := hokb
    have hpc := (mem_cells' b p1 p2).mp hpb
    refine ⟨by omega, by omega, by omega, by omega, ?_⟩
    show (if 0 < (syntheticImg h w bs).pix p1 p2 then 0 else 255) ≠ 0
    have hz : (syntheticImg h w bs).pix p1 p2 = 0 := by
      show (if (p1, p2) ∈ blobCells bs then 0 else 255) = 0
      rw [if_pos hmem]
    rw [hz]
    norm_num

/-- Shrinking preserves well-separation. -/
theorem farBlobs_shrink {a b : Blob} (h : farBlobs a b) : farBlobs (shrinkB a) (shrinkB b) := by
  unfold farBlobs at *
  simp only [shrinkB]
  omega

/-- C6 (amended): on a synthetic binary image of `N` disjoint, pairwise
well-separated square blobs, each with side at least 5 (large enough to
survive the two-iteration 3×3 opening) and a background margin, the
cell-count pipeline — Otsu inverse binarisation, opening with two
iterations, connected components excluding background — reports exactly
`N`. -/
theorem count_cells_synthetic (h w : Nat) (bs : List Blob)
    (hgood : goodBlobs h w 5 bs) :
    count_cells_core (syntheticImg h w bs) = bs.length := by
  unfold goodBlobs at hgood
  obtain ⟨hok, hfar⟩ := hgood
  have hotsu : otsu (syntheticImg h w bs) = 0 :=
    otsu_binary _ (syntheticImg_binary h w bs)
  show connectedComponentsCount
      (dilateK 3 (dilateK 3 (erodeK 3 (erodeK 3
        (thresholdBinaryInv (otsu (syntheticImg h w bs)) (syntheticImg h w bs)))))) - 1 =
    bs.length
  rw [hotsu]
  have h0 : fgSet (thresholdBinaryInv 0 (syntheticImg h w bs)) = blobCells bs :=
    fgSet_syntheticImg_inv h w bs (fun b hb => (hok b hb).1)
  have hok0 : ∀ b ∈ bs, 1 ≤ b.r ∧ 1 ≤ b.c ∧
      b.r + b.s + 1 ≤ (h : Int) ∧ b.c + b.s + 1 ≤ (w : Int) := by
    intro b hb
    have hb1 := (hok b hb).1
    unfold blobOK at hb1
    exact hb1
  have hs5 : ∀ b ∈ bs, 5 ≤ b.s := fun b hb => (hok b hb).2
  have h1 : fgSet (erodeK 3 (thresholdBinaryInv 0 (syntheticImg h w bs))) =
      blobCells (bs.map shrinkB) :=
    fgSet_erode3_blobs _ bs hok0 hfar h0
  have hfar1 : (bs.map shrinkB).Pairwise farBlobs :=
    List.Pairwise.map _ (fun a b hab => farBlobs_shrink hab) hfar
  have hok1 : ∀ b' ∈ bs.map shrinkB, 1 ≤ b'.r ∧ 1 ≤ b'.c ∧
      b'.r + b'.s + 1 ≤ (h : Int) ∧ b'.c + b'.s + 1 ≤ (w : Int) := by
    intro b' hb'
    obtain ⟨b, hb, rfl⟩ := List.mem_map.mp hb'
    have hm := hok0 b hb
    have h5 := hs5 b hb
    simp only [shrinkB]
    refine ⟨by omega, by omega, by omega, by omega⟩
  have h2 : fgSet (erodeK 3 (erodeK 3 (thresholdBinaryInv 0 (syntheticImg h w bs)))) =
      blobCells ((bs.map shrinkB).map shrinkB) :=
    fgSet_erode3_blobs _ (bs.map shrinkB) hok1 hfar1 h1
  have hok2 : ∀ b' ∈ (bs.map shrinkB).map shrinkB, 1 ≤ b'.s ∧ 1 ≤ b'.r ∧ 1 ≤ b'.c ∧
      b'.r + b'.s + 1 ≤ (h : Int) ∧ b'.c + b'.s + 1 ≤ (w : Int) := by
    intro b' hb'
    obtain ⟨b1, hb1, rfl⟩ := List.mem_map.mp hb'
    obtain ⟨b, hb, rfl⟩ := List.mem_map.mp hb1
    have hm := hok0 b hb
    have h5 := hs5 b hb
    simp only [shrinkB]
    refine ⟨by omega, by omega, by omega, by omega, by omega⟩
  have h3 : fgSet (dilateK 3 (erodeK 3 (erodeK 3
      (thresholdBinaryInv 0 (syntheticImg h w bs))))) =
      blobCells (((bs.map shrinkB).map shrinkB).map growB) :=
    fgSet_dilate3_blobs _ ((bs.map shrinkB).map shrinkB) hok2 h2
  have hok3 : ∀ b' ∈ ((bs.map shrinkB).map shrinkB).map growB, 1 ≤ b'.s ∧ 1 ≤ b'.r ∧ 1 ≤ b'.c ∧
      b'.r + b'.s + 1 ≤ (h : Int) ∧ b'.c + b'.s + 1 ≤ (w : Int) := by
    intro b' hb'
    obtain ⟨b2, hb2, rfl⟩ := List.mem_map.mp hb'
    obtain ⟨b1, hb1, rfl⟩ := List.mem_map.mp hb2
    obtain ⟨b, hb, rfl⟩ := List.mem_map.mp hb1
    have hm := hok0 b hb
    have h5 := hs5 b hb
    simp only [shrinkB, growB]
    refine ⟨by omega, by omega, by omega, by omega, by omega⟩
  have h4 : fgSet (dilateK 3 (dilateK 3 (erodeK 3 (erodeK 3
      (thresholdBinaryInv 0 (syntheticImg h w bs)))))) =
      blobCells ((((bs.map shrinkB).map shrinkB).map growB).map growB) :=
    fgSet_dilate3_blobs _ (((bs.map shrinkB).map shrinkB).map growB) hok3 h3
  have hfinal : (((bs.map shrinkB).map shrinkB).map growB).map growB = bs := by
    rw [List.map_map, List.map_map, List.map_map]
    have hcongr : bs.map (((growB ∘ growB) ∘ shrinkB) ∘ shrinkB) = bs.map id :=
      List.map_congr_left (by
        intro b hb
        obtain ⟨br, bc, bsd⟩ := b
        have h5 : 5 ≤ bsd := hs5 _ hb
        simp only [Function.comp_apply, shrinkB, growB, id_eq, Blob.mk.injEq]
        refine ⟨by omega, by omega, by omega⟩)
    rw [hcongr, List.map_id]
  rw [show connectedComponentsCount
        (dilateK 3 (dilateK 3 (erodeK 3 (erodeK 3
          (thresholdBinaryInv 0 (syntheticImg h w bs)))))) =
      1 + ccCount (fgSet (dilateK 3 (dilateK 3 (erodeK 3 (erodeK 3
          (thresholdBinaryInv 0 (syntheticImg h w bs))))))) from rfl]
  rw [h4, hfinal]
  rw [ccCount_blobs bs (fun b hb => by have := hs5 b hb; omega) hfar]
  omega

/-- Dilating an image with empty foreground leaves the foreground empty. -/
theorem fgSet_dilate3_empty (B : GImg) (hfg : fgSet B = ∅) : fgSet (dilateK 3 B) = ∅ := by
  ext ⟨p1, p2⟩
  simp only [Finset.not_mem_empty, iff_false]
  intro hmem
  rw [mem_fgSet'] at hmem
  obtain ⟨h1, h2, h3, h4, h5⟩ := hmem
  rw [dilate3_pix_ne_zero] at h5
  obtain ⟨⟨o1, o2⟩, ho, hv⟩ := h5
  unfold valOr at hv
  by_cases hin : 0 ≤ p1 + o1 ∧ p1 + o1 < (B.h : Int) ∧ 0 ≤ p2 + o2 ∧ p2 + o2 < (B.w : Int)
  · rw [if_pos hin] at hv
    have hq : (p1 + o1, p2 + o2) ∈ fgSet B := by
      rw [mem_fgSet']
      exact ⟨hin.1, hin.2.1, hin.2.2.1, hin.2.2.2, hv⟩
    rw [hfg] at hq
    exact absurd hq (Finset.not_mem_empty _)
  · rw [if_neg hin] at hv
    exact hv rfl

/-- C6 witness: one 5×5 blob with margin in a 7×7 frame is counted as one
cell. -/
theorem count_cells_synthetic_witness :
    goodBlobs 7 7 5 [⟨1, 1, 5⟩] ∧
      count_cells_core (syntheticImg 7 7 [⟨1, 1, 5⟩]) = [(⟨1, 1, 5⟩ : Blob)].length :=
  ⟨by decide, count_cells_synthetic 7 7 [⟨1, 1, 5⟩] (by decide)⟩

/-- Unfolding equation for `count_cells_core`, stated over a variable image
so that instantiating it never forces evaluation. -/
theorem count_cells_core_eq (img : GImg) :
    count_cells_core img =
      connectedComponentsCount (dilateK 3 (dilateK 3 (erodeK 3 (erodeK 3
        (thresholdBinaryInv (otsu img) img))))) - 1 := rfl

/-- Unfolding equation for `connectedComponentsCount`. -/
theorem connectedComponentsCount_eq (B : GImg) :
    connectedComponentsCount B = 1 + ccCount (fgSet B) := rfl

/-- C6 counterexample: a single blob exactly as large as the 3×3 denoise
kernel — admissible under the claim's "at least as large as the denoise
kernel" — is erased by the two-iteration opening, so the pipeline reports 0
instead of 1. -/
theorem count_cells_kernel_size_blob_lost :
    goodBlobs 5 5 3 [⟨1, 1, 3⟩] ∧
      count_cells_core (syntheticImg 5 5 [⟨1, 1, 3⟩]) = 0 ∧
      count_cells_core (syntheticImg 5 5 [⟨1, 1, 3⟩]) ≠ [(⟨1, 1, 3⟩ : Blob)].length := by
  have hotsu : otsu (syntheticImg 5 5 [⟨1, 1, 3⟩]) = 0 :=
    otsu_binary _ (syntheticImg_binary 5 5 [⟨1, 1, 3⟩])
  have hcount : count_cells_core (syntheticImg 5 5 [⟨1, 1, 3⟩]) = 0 := by
    rw [count_cells_core_eq, hotsu]
    have h0 : fgSet (thresholdBinaryInv 0 (syntheticImg 5 5 [⟨1, 1, 3⟩])) =
        blobCells [⟨1, 1, 3⟩] :=
      fgSet_syntheticImg_inv 5 5 _ (by decide)
    have h1 : fgSet (erodeK 3 (thresholdBinaryInv 0 (syntheticImg 5 5 [⟨1, 1, 3⟩]))) =
        blobCells ([(⟨1, 1, 3⟩ : Blob)].map shrinkB) :=
      fgSet_erode3_blobs _ _ (by decide) (by decide) h0
    have hmap1 : [(⟨1, 1, 3⟩ : Blob)].map shrinkB = [⟨2, 2, 1⟩] := by decide
    rw [hmap1] at h1
    have h2 : fgSet (erodeK 3 (erodeK 3 (thresholdBinaryInv 0 (syntheticImg 5 5 [⟨1, 1, 3⟩])))) =
        blobCells ([(⟨2, 2, 1⟩ : Blob)].map shrinkB) :=
      fgSet_erode3_blobs _ _ (by decide) (by decide) h1
    have hmap2 : [(⟨2, 2, 1⟩ : Blob)].map shrinkB = [⟨3, 3, 0⟩] := by decide
    rw [hmap2] at h2
    have hempty : blobCells [(⟨3, 3, 0⟩ : Blob)] = ∅ := by
      ext ⟨p1, p2⟩
      simp only [Finset.not_mem_empty, iff_false, mem_blobCells, List.mem_singleton]
      rintro ⟨b, rfl, hpb⟩
      rw [mem_cells'] at hpb
      simp only [show ((⟨3, 3, 0⟩ : Blob)).r = 3 from rfl,
        show ((⟨3, 3, 0⟩ : Blob)).c = 3 from rfl,
        show ((⟨3, 3, 0⟩ : Blob)).s = 0 from rfl] at hpb
      push_cast at hpb
      omega
    rw [hempty] at h2
    have h3 : fgSet (dilateK 3 (erodeK 3 (erodeK 3
        (thresholdBinaryInv 0 (syntheticImg 5 5 [⟨1, 1, 3⟩]))))) = ∅ :=
      fgSet_dilate3_empty _ h2
    have h4 : fgSet (dilateK 3 (dilateK 3 (erodeK 3 (erodeK 3
        (thresholdBinaryInv 0 (syntheticImg 5 5 [⟨1, 1, 3⟩])))))) = ∅ :=
      fgSet_dilate3_empty _ h3
    rw [connectedComponentsCount_eq, h4]
    rw [show ccCount (∅ : Finset (Int × Int)) = 0 by simp [ccCount]]
  refine ⟨by decide, hcount, ?_⟩
  rw [hcount]
  decide
